import Mathlib

/-!
A verification development for the `flask_dependant` dependency-injection
engine: a shallow embedding of its dependency-graph builder
(`utils.get_dependant`), graph flattener (`utils.get_flat_dependant`),
body-schema synthesizer (`utils.get_body_field`), request-value binders
(`utils.request_params_to_args`, `utils.request_body_to_args`), and the
request-time resolver (`utils.solve_dependencies` together with
`app.get_route_handler`), with theorems about error aggregation, dependency
caching, scoped-dependency cleanup, body-schema synthesis, alias inference,
and build-time signature validation.

Python values crossing the binder are modelled by the inductive `Val`
(`Val.none` is Python's `None`).  Python-level exceptions (AttributeError,
AssertionError, RecursionError, TypeError, exceptions raised by user
callables) are modelled by `Except Fault`.  Recursion over user-supplied
structures (signature graphs, dependant trees) takes an explicit fuel
argument; fuel exhaustion models Python's RecursionError.
-/

namespace FlaskDependant

/-- Python values as seen by the binding layer.  `opaque_` stands for Python
objects outside the binder's value domain (e.g. a `Depends` object stored as
a default). -/
inductive Val where
  | none
  | bool (b : Bool)
  | int (n : Int)
  | str (s : String)
  | list (xs : List Val)
  | dict (xs : List (String × Val))
  | respObj
  | opaque_

/-- Python `value is None`. -/
def Val.isNoneV : Val → Bool
  | .none => true
  | _ => false

/-- Python `value == ""` for an arbitrary object `value`: true exactly for
the empty string. -/
def isEmptyStr : Val → Bool
  | .str s => s = ""
  | _ => false

/-- Model of `copy.deepcopy` (Python standard library, an external
collaborator): it returns a structurally equal value; object identity and
sharing are outside this pure value model, so it is the identity here. -/
def deepcopy (v : Val) : Val := v

/-- Python `dict` lookup (`d.get(k)` / `k in d`): first binding wins, which
matches insertion-ordered dicts without duplicate keys. -/
def dictGet (m : List (String × Val)) (k : String) : Option Val :=
  match m with
  | [] => Option.none
  | (k', v) :: rest => if k' = k then some v else dictGet rest k

/-- Python `d[k] = v`: overwrite in place if present, else append. -/
def dictSet (m : List (String × Val)) (k : String) (v : Val) : List (String × Val) :=
  match m with
  | [] => [(k, v)]
  | (k', v') :: rest => if k' = k then (k', v) :: rest else (k', v') :: dictSet rest k v

/-- Python `d1.update(d2)`. -/
def dictUpdate (m₁ m₂ : List (String × Val)) : List (String × Val) :=
  m₂.foldl (fun acc kv => dictSet acc kv.1 kv.2) m₁

/-- Python `len(v)` for sized values; `Option.none` models a TypeError on
unsized values. -/
def pyLen (v : Val) : Option Nat :=
  match v with
  | .str s => some s.length
  | .list xs => some xs.length
  | .dict xs => some xs.length
  | _ => Option.none

/-- The cause carried by one `ErrorWrapper` entry: pydantic's `MissingError`
or some validation error (identified by a code, pydantic being the external
validation collaborator). -/
inductive ErrCause where
  | missing
  | invalid (code : Nat)
deriving DecidableEq, Repr

/-- One collected binding/validation error: a location tuple plus a cause,
modelling `pydantic.error_wrappers.ErrorWrapper`. -/
structure Err where
  loc : List String
  cause : ErrCause
deriving DecidableEq, Repr

/-- Python-level failures that abort a build or a resolution walk:
`attributeError`, `assertionError`, `typeError`, `recursionError` model the
corresponding Python exceptions, and `raised c` models an exception raised
by a user callable (including `HTTPException`). -/
inductive Fault where
  | attributeError
  | assertionError
  | typeError
  | recursionError
  | raised (code : Nat)
deriving DecidableEq, Repr

/-- The four non-body parameter sources (`params.ParamTypes`). -/
inductive ParamSrc where
  | path | query | header | cookie
deriving DecidableEq, Repr

/-- The `.value` of a `ParamTypes` member, used in error locations. -/
def ParamSrc.value : ParamSrc → String
  | .path => "path"
  | .query => "query"
  | .header => "header"
  | .cookie => "cookie"

/-- The three body-marker classes.  In the marker hierarchy `File` is a
subclass of `Form`, which is a subclass of `Body`. -/
inductive BodyKind where
  | bodyK | formK | fileK
deriving DecidableEq, Repr

/-- A media type value.  Markers written by users carry a string; the
composite body field built by `get_body_field` assigns the whole *list* of
sub-field media types to the `media_type` keyword (source line 441), so the
model value can also be a list of strings. -/
inductive MediaV where
  | str (s : String)
  | list (l : List String)
deriving DecidableEq, Repr

/-- Modelled from the spec: the parameter-marker model of
`flask_dependant/params.py`, which is not under `src/`.  Per the spec's
ParameterField/marker description, a marker is a tagged variant over
`{Path, Query, Header, Cookie, Body, Form, File}` carrying its
source-location `in_`, an optional `alias`, a default value (`Option.none`
models the `Required` sentinel), and for body markers the `embed` flag and a
`media_type`.  `par cls in_ alias default` keeps the concrete marker class
`cls` (what `isinstance` tests see) separate from the mutable `in_`
attribute.  The spec lists no underscore-conversion option, so
`getattr(field_info, "convert_underscores", None)` is modelled as absent
(see `convertUnderscores`). -/
inductive FInfo where
  | par (cls : ParamSrc) (in_ : Option ParamSrc) (al : Option String) (default : Option Val)
  | body (kind : BodyKind) (embed : Bool) (media : MediaV) (al : Option String) (default : Option Val)

/-- Modelled from the spec: the markers of `params.py` declare no
`convert_underscores` option, so `getattr(field_info, "convert_underscores",
None)` yields `None` for every marker. -/
def convertUnderscores (_ : FInfo) : Option Bool := Option.none

/-- The marker's `alias` attribute. -/
def FInfo.aliasOf : FInfo → Option String
  | .par _ _ a _ => a
  | .body _ _ _ a _ => a

/-- The marker's `default` attribute (`Option.none` = `Required`). -/
def FInfo.defaultOf : FInfo → Option Val
  | .par _ _ _ d => d
  | .body _ _ _ _ d => d

/-- `getattr(field_info, "embed", None)`: only body markers have `embed`. -/
def getEmbed : FInfo → Option Bool
  | .par _ _ _ _ => Option.none
  | .body _ e _ _ _ => some e

/-- Python truthiness of `getattr(..., "embed", None)`. -/
def truthy (o : Option Bool) : Bool := o.getD false

/-- `isinstance(field_info, params.Param)`. -/
def FInfo.isParam : FInfo → Bool
  | .par _ _ _ _ => true
  | .body _ _ _ _ _ => false

/-- `isinstance(field_info, params.Body)`: true for Body, Form and File
markers (File and Form are Body subclasses). -/
def FInfo.isBody : FInfo → Bool
  | .par _ _ _ _ => false
  | .body _ _ _ _ _ => true

/-- `isinstance(field_info, params.Form)`: true for Form and File markers
(File is a Form subclass). -/
def FInfo.isForm : FInfo → Bool
  | .body .formK _ _ _ _ => true
  | .body .fileK _ _ _ _ => true
  | _ => false

/-- `isinstance(field_info, params.File)`. -/
def FInfo.isFile : FInfo → Bool
  | .body .fileK _ _ _ _ => true
  | _ => false

/-- `isinstance(field_info, params.Header)` (the concrete marker class, not
the `in_` attribute). -/
def FInfo.isHeaderCls : FInfo → Bool
  | .par .header _ _ _ => true
  | _ => false

/-- The marker's `in_` attribute (`Option.none` when unset). -/
def FInfo.inOf : FInfo → Option ParamSrc
  | .par _ i _ _ => i
  | .body _ _ _ _ _ => Option.none

/-- The marker's `media_type` attribute (body markers). -/
def FInfo.mediaOf : FInfo → MediaV
  | .par _ _ _ _ => .str ""
  | .body _ _ m _ _ => m

/-- The `Err` rows produced when `field.validate` reports causes `cs` at
location `loc` (pydantic attaches the location passed by the binder). -/
def wrapErrs (loc : List String) (cs : List ErrCause) : List Err :=
  cs.map (fun c => ⟨loc, c⟩)

/-- The static type (annotation) of a declared parameter, and the `type_`
of a pydantic `ModelField`.  pydantic is an external collaborator (the
spec's "validation/type-coercion library"); this models the type universe
the claims exercise: scalar primitives, `Any`, a `BaseModel` subclass, a
`dict`/dataclass annotation, the bare `list` class, `List[t]`/`Set[t]`
generics, the framework's `Response` class, a callable value used as a
`Depends` target, and the dynamically created composite body model. -/
inductive Ty where
  | anyTy
  | intTy
  | strTy
  | boolTy
  | baseModel
  | dictTy
  | dataclassTy
  | responseTy
  | callableTy (c : Nat)
  | bareList
  | listOf (t : Ty)
  | setOf (t : Ty)
  | bodyModelTy
deriving DecidableEq, Repr

/-- `lenient_issubclass(t, BaseModel)`: true for `BaseModel` subclasses,
including the `create_model`-generated composite body model.  On non-class
arguments (`List[t]`, values) `lenient_issubclass` swallows the TypeError
and returns false. -/
def isSubBaseModel : Ty → Bool
  | .baseModel => true
  | .bodyModelTy => true
  | _ => false

/-- `lenient_issubclass(t, sequence_types + (dict,))` where
`sequence_types = (list, set, tuple)`. -/
def isSubSeqOrDict : Ty → Bool
  | .bareList => true
  | .dictTy => true
  | _ => false

/-- `dataclasses.is_dataclass(t)`. -/
def isDataclass : Ty → Bool
  | .dataclassTy => true
  | _ => false

/-- `lenient_issubclass(t, sequence_types)`. -/
def isSubSeqTypes : Ty → Bool
  | .bareList => true
  | _ => false

/-- `t in sequence_types`: identity membership in `(list, set, tuple)`,
true exactly for the bare sequence classes. -/
def tyInSeqTypes : Ty → Bool
  | .bareList => true
  | _ => false

/-- `lenient_issubclass(t, Response)`. -/
def isSubResponse : Ty → Bool
  | .responseTy => true
  | _ => false

/-- A pydantic field shape (`SHAPE_SINGLETON`, `SHAPE_LIST`, ...). -/
inductive Shape where
  | singleton | list | set | tuple | seq | tupleEllipsis
deriving DecidableEq, Repr

/-- The `sequence_shapes` set from `utils.py`. -/
def sequence_shapes : List Shape :=
  [Shape.list, Shape.set, Shape.tuple, Shape.seq, Shape.tupleEllipsis]

/-- pydantic's decomposition of an annotation into a field's `shape` and
`type_`: generic sequences expose their element type with a sequence shape;
everything else is a singleton of itself. -/
def fieldPartsOfTy : Ty → Shape × Ty
  | .listOf t => (Shape.list, t)
  | .setOf t => (Shape.set, t)
  | t => (Shape.singleton, t)

/-- The non-recursive attributes of a pydantic `ModelField`. -/
structure FieldData where
  name : String
  al : String
  required : Bool
  default : Val
  info : FInfo
  shape : Shape
  ty : Ty

/-- A pydantic `ModelField`: its flat data, its `sub_fields`
(`[]` models `None`), the `__fields__` of its type when the type is a
`create_model`-generated body model (used by `get_body_field`), and its
`validate` capability — the external validation contract
`validate(value, values, loc) -> (typed, errors)`, with the location
attached by the caller via `wrapErrs`. -/
inductive Field where
  | mk (data : FieldData) (subFields : List Field) (modelFields : List Field)
      (validate : Val → Val ⊕ List ErrCause)

/-- The flat attribute record of a field. -/
def Field.data : Field → FieldData
  | .mk d _ _ _ => d

/-- `field.sub_fields` (`[]` models `None`). -/
def Field.subFields : Field → List Field
  | .mk _ s _ _ => s

/-- The `__fields__` of the field's type when it is a generated body model. -/
def Field.modelFields : Field → List Field
  | .mk _ _ m _ => m

/-- `field.validate` as a function. -/
def Field.validate : Field → Val → Val ⊕ List ErrCause
  | .mk _ _ _ v => v

/-- `field.name`. -/
def Field.name (f : Field) : String := f.data.name

/-- `field.alias`. -/
def Field.aliasOf (f : Field) : String := f.data.al

/-- `field.required`. -/
def Field.required (f : Field) : Bool := f.data.required

/-- `field.default`. -/
def Field.default (f : Field) : Val := f.data.default

/-- `field.field_info`. -/
def Field.info (f : Field) : FInfo := f.data.info

/-- `field.shape`. -/
def Field.shape (f : Field) : Shape := f.data.shape

/-- `field.type_`. -/
def Field.ty (f : Field) : Ty := f.data.ty

/-- `utils.is_scalar_field`.  The source's recursive branch (line 150) is
`all(is_scalar_field(field) for f in field.sub_fields)`: it recurses on
`field` itself, not on the sub-field `f`, so whenever the outer conditions
hold and `sub_fields` is non-empty the call never terminates
(a request-time/build-time `RecursionError`); `Option.none` models that
divergence. -/
def is_scalar_field (f : Field) : Option Bool :=
  if f.shape = Shape.singleton
      ∧ ¬ isSubBaseModel f.ty
      ∧ ¬ isSubSeqOrDict f.ty
      ∧ ¬ isDataclass f.ty
      ∧ ¬ f.info.isBody then
    match f.subFields with
    | [] => some true
    | _ :: _ => Option.none
  else some false

/-- The sub-field loop of `utils.is_scalar_field`, as used by
`is_scalar_sequence_field`: all sub-fields must be scalar; a diverging
sub-check diverges. -/
def allScalar : List Field → Option Bool
  | [] => some true
  | s :: rest =>
    match is_scalar_field s with
    | Option.none => Option.none
    | some false => some false
    | some true => allScalar rest

/-- `utils.is_scalar_sequence_field`. -/
def is_scalar_sequence_field (f : Field) : Option Bool :=
  if f.shape ∈ sequence_shapes ∧ ¬ isSubBaseModel f.ty then
    allScalar f.subFields
  else if isSubSeqTypes f.ty then some true
  else some false

/-- The default value slot of a declared parameter, after
`get_typed_signature`: absent (`inspect.Parameter.empty`), a plain value, a
marker (`FieldInfo` instance), or a `Depends` marker carrying an optional
explicit dependency callable and its `use_cache` flag. -/
inductive PDefault where
  | empty
  | val (v : Val)
  | info (fi : FInfo)
  | depends (dep : Option Nat) (useCache : Bool)

/-- One declared parameter of a callable's typed signature: name, default
slot, and annotation (`Option.none` models `inspect.Parameter.empty`). -/
structure PParam where
  name : String
  default : PDefault
  ann : Option Ty

/-- A build-time environment: each callable (identified by a `Nat`) has a
typed signature, as produced by `get_typed_signature`. -/
def SigEnv := Nat → List PParam

/-- The validation capability pydantic derives for a type — the external
collaborator's `validate` contract, modelled minimally: `int` coerces
int-shaped strings and rejects other values, `str` accepts strings, `Any`
accepts everything, and remaining types accept their value unvalidated. -/
def tyValidate : Ty → Val → Val ⊕ List ErrCause
  | .intTy, .int n => Sum.inl (Val.int n)
  | .intTy, .str s =>
    match s.toInt? with
    | some n => Sum.inl (Val.int n)
    | Option.none => Sum.inr [ErrCause.invalid 0]
  | .intTy, _ => Sum.inr [ErrCause.invalid 0]
  | .strTy, .str s => Sum.inl (Val.str s)
  | .strTy, _ => Sum.inr [ErrCause.invalid 1]
  | _, v => Sum.inl v

/-- `alias[0].upper() + alias[1:]`. -/
def capFirst (s : String) : String :=
  match s.data with
  | [] => s
  | c :: cs => String.mk (c.toUpper :: cs)

/-- `isinstance(param_field.default, params.Path)` (source line 381): the
model's value domain `Val` contains no marker objects, so a field's default
value is never a `params.Path` instance. -/
def valIsPathMarker (_ : Val) : Bool := false

/-- The unwrapped default value inside `get_param_field`: the `Required`
sentinel or a plain value. -/
inductive DVal where
  | required
  | val (v : Val)

/-- `utils.get_param_field`.  `default_field_info` is the marker class to
fall back to (always `params.Path` at the call sites), modelled by its
source tag.  Construction of the pydantic `ModelField`
(`create_response_field`) uses `fieldPartsOfTy` and `tyValidate` for the
external pydantic parts.  Faults: the source's line-328 call to the
(possibly diverging) `is_scalar_field` surfaces as `recursionError`. -/
def get_param_field (p : PParam) (default_field_info : ParamSrc)
    (force_type : Option ParamSrc) (ignore_default : Bool) :
    Except Fault Field :=
  -- lines 284-287: default_value starts as Required, taken from the
  -- parameter unless absent or ignored
  let dv0 : DVal :=
    match p.default, ignore_default with
    | PDefault.empty, _ => DVal.required
    | _, true => DVal.required
    | PDefault.val v, false => DVal.val v
    | PDefault.info _, false => DVal.required  -- unused: the marker case is unwrapped in `step`
    | PDefault.depends _ _, false => DVal.val Val.opaque_
  -- lines 292-305: when the default is a FieldInfo, it becomes the marker
  -- and its own default is unwrapped; otherwise a fresh
  -- default_field_info(default_value) marker is built
  let step : Bool × FInfo × DVal :=
    match p.default, ignore_default with
    | PDefault.info fi, false =>
      let dv1 : DVal :=
        match fi.defaultOf with
        | Option.none => DVal.required
        | some v => DVal.val v
      let fi1 :=
        match fi with
        | FInfo.par cls Option.none a d => FInfo.par cls (some default_field_info) a d
        | other => other
      let fi2 :=
        match force_type, fi1 with
        | some t, FInfo.par cls _ a d => FInfo.par cls (some t) a d
        | _, other => other  -- setting in_ on a Body marker is a ghost attribute
      (true, fi2, dv1)
    | _, _ =>
      (false,
       FInfo.par default_field_info (some default_field_info) Option.none
         (match dv0 with | DVal.required => Option.none | DVal.val v => some v),
       dv0)
  let had_schema := step.1
  let field_info := step.2.1
  let default_value := step.2.2
  let required : Bool := match default_value with | DVal.required => true | _ => false
  -- lines 307-310: the annotation (Any when absent);
  -- get_annotation_from_field_info is the external pydantic constraint
  -- application, identity here
  let annotation : Ty := p.ann.getD Ty.anyTy
  -- lines 311-317: alias resolution; convert_underscores is absent from the
  -- modelled markers, and an empty explicit alias is falsy
  let alias0 : String :=
    if (field_info.aliasOf = Option.none ∨ field_info.aliasOf = some "")
        ∧ (convertUnderscores field_info).isSome then
      String.intercalate "-" (p.name.splitOn "_")
    else
      match field_info.aliasOf with
      | some a => if a = "" then p.name else a
      | Option.none => p.name
  let al : String :=
    if field_info.isHeaderCls ∧ alias0 ≠ "" then capFirst alias0 else alias0
  -- lines 319-327: create_response_field
  let parts := fieldPartsOfTy annotation
  let field : Field :=
    Field.mk
      { name := p.name
        al := al
        required := required
        default :=
          if required then Val.none
          else match default_value with | DVal.val v => v | DVal.required => Val.none
        info := field_info
        shape := parts.1
        ty := parts.2 }
      [] [] (tyValidate parts.2)
  -- lines 328-329: un-marked non-scalar fields are reclassified as Body
  if had_schema then Except.ok field
  else
    match is_scalar_field field with
    | Option.none => Except.error Fault.recursionError
    | some true => Except.ok field
    | some false =>
      Except.ok
        (Field.mk
          { field.data with
              info := FInfo.body BodyKind.bodyK false (MediaV.str "application/json")
                Option.none field_info.defaultOf }
          [] [] (tyValidate parts.2))

/-- The non-recursive attributes of a `models.Dependant` node.  `call` is
the underlying callable (`Option.none` for flattener-built aggregate
nodes).  `requestParamName` models `request_param_name`, which the
constructor initializes to `None`.  `respAttr` models the
`response_param_name` *attribute slot*: the constructor never initializes
it, so `Option.none` means the attribute is absent (reading it raises
AttributeError), `some x` means it was assigned value `x` by
`add_non_field_param_to_dependency`. -/
structure DepCore where
  name : Option String
  call : Option Nat
  useCache : Bool
  respAttr : Option (Option String)
  requestParamName : Option String
  pathParams : List Field
  queryParams : List Field
  headerParams : List Field
  cookieParams : List Field
  bodyParams : List Field

/-- A `models.Dependant` node: its flat attributes and its child
dependencies. -/
inductive Dep where
  | mk (core : DepCore) (deps : List Dep)

/-- The flat attributes of a node. -/
def Dep.core : Dep → DepCore
  | .mk c _ => c

/-- The node's child dependencies. -/
def Dep.deps : Dep → List Dep
  | .mk _ ds => ds

/-- `dependant.cache_key`: the 1-tuple `(self.call,)`. -/
def Dep.cacheKey (d : Dep) : Option Nat := d.core.call

/-- `utils.add_param_to_fields`: route a classified field into the node's
per-source list by its marker's `in_`; a marker that is not one of the four
`ParamTypes` (or a body marker, which has no `in_`) hits the trailing
cookie assertion. -/
def add_param_to_fields (f : Field) (core : DepCore) : Except Fault DepCore :=
  match f.info.inOf with
  | some ParamSrc.path => Except.ok { core with pathParams := core.pathParams ++ [f] }
  | some ParamSrc.query => Except.ok { core with queryParams := core.queryParams ++ [f] }
  | some ParamSrc.header => Except.ok { core with headerParams := core.headerParams ++ [f] }
  | some ParamSrc.cookie => Except.ok { core with cookieParams := core.cookieParams ++ [f] }
  | Option.none => Except.error Fault.assertionError

/-- `param.default == param.empty`. -/
def PDefault.isEmpty : PDefault → Bool
  | PDefault.empty => true
  | _ => false

/-- `isinstance(param.default, (params.Query, params.Header))`
(source line 386-388). -/
def defaultIsQueryOrHeader : PDefault → Bool
  | PDefault.info (FInfo.par ParamSrc.query _ _ _) => true
  | PDefault.info (FInfo.par ParamSrc.header _ _ _) => true
  | _ => false

/-- The per-parameter body of the `get_dependant` loop (source lines
354-395), parameterized by `recur`, the recursive sub-dependant builder
`λ call name useCache => get_dependant … ` at one fuel step less.  The
accumulator is the node's flat attributes plus its child list. -/
def dependantParamStep (recur : Nat → Option String → Bool → Except Fault Dep)
    (acc : DepCore × List Dep) (p : PParam) : Except Fault (DepCore × List Dep) :=
  let (core, subs) := acc
  match p.default with
  | PDefault.depends depOpt uc =>
    -- get_param_sub_dependant: an explicit dependency target, else the
    -- parameter's annotation must itself be a callable
    match depOpt with
    | some dcall =>
      match recur dcall (some p.name) uc with
      | Except.error e => Except.error e
      | Except.ok sub => Except.ok (core, subs ++ [sub])
    | Option.none =>
      match p.ann with
      | some (Ty.callableTy dcall) =>
        match recur dcall (some p.name) uc with
        | Except.error e => Except.error e
        | Except.ok sub => Except.ok (core, subs ++ [sub])
      | _ => Except.error Fault.typeError  -- inspect.signature on a non-callable
  | _ =>
    -- add_non_field_param_to_dependency
    if isSubResponse (p.ann.getD Ty.anyTy) then
      Except.ok ({ core with respAttr := some (some p.name) }, subs)
    else
      let fieldE : Except Fault Field :=
        if p.default.isEmpty then
          match get_param_field p ParamSrc.path (some ParamSrc.path) true with
          | Except.error e => Except.error e
          | Except.ok f =>
            -- line 374: assert is_scalar_field(field=param_field)
            match is_scalar_field f with
            | some true => Except.ok f
            | some false => Except.error Fault.assertionError
            | Option.none => Except.error Fault.recursionError
        else
          get_param_field p ParamSrc.path Option.none false
      match fieldE with
      | Except.error e => Except.error e
      | Except.ok f =>
        if valIsPathMarker f.default then
          match add_param_to_fields f core with
          | Except.error e => Except.error e
          | Except.ok core' => Except.ok (core', subs)
        else
          match is_scalar_field f with
          | Option.none => Except.error Fault.recursionError
          | some true =>
            match add_param_to_fields f core with
            | Except.error e => Except.error e
            | Except.ok core' => Except.ok (core', subs)
          | some false =>
            match (if defaultIsQueryOrHeader p.default then is_scalar_sequence_field f
                   else some false) with
            | Option.none => Except.error Fault.recursionError
            | some true =>
              match add_param_to_fields f core with
              | Except.error e => Except.error e
              | Except.ok core' => Except.ok (core', subs)
            | some false =>
              -- line 392: assert isinstance(field_info, params.Body)
              if f.info.isBody then
                Except.ok ({ core with bodyParams := core.bodyParams ++ [f] }, subs)
              else Except.error Fault.assertionError

/-- The parameter loop of `get_dependant`, folding `dependantParamStep`
over the signature. -/
def dependantParamLoop (recur : Nat → Option String → Bool → Except Fault Dep)
    (acc : DepCore × List Dep) : List PParam → Except Fault (DepCore × List Dep)
  | [] => Except.ok acc
  | p :: rest =>
    match dependantParamStep recur acc p with
    | Except.error e => Except.error e
    | Except.ok acc' => dependantParamLoop recur acc' rest

/-- `utils.get_dependant`: introspect the callable `c`'s signature and build
its Dependant node, recursing into `Depends`-marked parameters.  The fuel
argument bounds the recursion depth (exhaustion models Python's
RecursionError on cyclic dependency graphs).  The fresh node's
`response_param_name` attribute slot starts *absent* (`respAttr :=
Option.none`) while `request_param_name` is initialized to `None`. -/
def get_dependant (env : SigEnv) : Nat → Nat → Option String → Bool → Except Fault Dep
  | 0, _, _, _ => Except.error Fault.recursionError
  | n + 1, c, name, useCache =>
    let core0 : DepCore :=
      { name := name
        call := some c
        useCache := useCache
        respAttr := Option.none
        requestParamName := Option.none
        pathParams := []
        queryParams := []
        headerParams := []
        cookieParams := []
        bodyParams := [] }
    match dependantParamLoop (fun c' nm uc => get_dependant env n c' nm uc)
        (core0, []) (env c) with
    | Except.error e => Except.error e
    | Except.ok (core, subs) => Except.ok (Dep.mk core subs)

/-- The child loop of `get_flat_dependant` (source lines 237-247),
parameterized by `recur`, the recursive flatten at one fuel step less.  The
accumulator is the aggregate node under construction plus the shared
`visited` list, which the source mutates in place (appends persist across
siblings). -/
def flattenLoop
    (recur : Dep → List (Option Nat) → Except Fault (DepCore × List (Option Nat)))
    (skipRepeats : Bool) (acc : DepCore × List (Option Nat)) :
    List Dep → Except Fault (DepCore × List (Option Nat))
  | [] => Except.ok acc
  | sub :: rest =>
    let (core, visited) := acc
    if skipRepeats ∧ sub.cacheKey ∈ visited then
      flattenLoop recur skipRepeats acc rest
    else
      match recur sub visited with
      | Except.error e => Except.error e
      | Except.ok (subCore, visited') =>
        flattenLoop recur skipRepeats
          ({ core with
              pathParams := core.pathParams ++ subCore.pathParams
              queryParams := core.queryParams ++ subCore.queryParams
              headerParams := core.headerParams ++ subCore.headerParams
              cookieParams := core.cookieParams ++ subCore.cookieParams
              bodyParams := core.bodyParams ++ subCore.bodyParams },
           visited') rest

/-- `utils.get_flat_dependant`: merge a node's per-source parameter lists
with every descendant's, pre-order, threading the `visited` cache-key list;
with `skipRepeats` a branch whose cache key was already visited is skipped.
The aggregate node is a fresh `Dependant(...)` (so its
`response_param_name` slot is again absent and its `call` is `None`). -/
def get_flat_dependant : Nat → Bool → Dep → List (Option Nat) →
    Except Fault (DepCore × List (Option Nat))
  | 0, _, _, _ => Except.error Fault.recursionError
  | n + 1, skipRepeats, d, visited =>
    let visited' := visited ++ [d.cacheKey]
    let flat0 : DepCore :=
      { name := Option.none
        call := Option.none
        useCache := d.core.useCache
        respAttr := Option.none
        requestParamName := Option.none
        pathParams := d.core.pathParams
        queryParams := d.core.queryParams
        headerParams := d.core.headerParams
        cookieParams := d.core.cookieParams
        bodyParams := d.core.bodyParams }
    flattenLoop (fun sub vis => get_flat_dependant n skipRepeats sub vis)
      skipRepeats (flat0, visited') d.deps

/-- `setattr(param.field_info, "embed", True)` (source line 418).  Only body
markers carry an `embed` slot; `body_params` entries always do. -/
def setEmbedTrue (f : Field) : Field :=
  match f.info with
  | FInfo.body k _ m a dflt =>
    Field.mk { f.data with info := FInfo.body k true m a dflt }
      f.subFields f.modelFields f.validate
  | FInfo.par _ _ _ _ => f

/-- `BodyModel.__fields__[f.name] = f`: dict assignment keyed by the field
name (a later field with the same name overwrites the earlier one). -/
def fieldDictSet (acc : List Field) (f : Field) : List Field :=
  match acc with
  | [] => [f]
  | g :: rest => if g.name = f.name then f :: rest else g :: fieldDictSet rest f

/-- The single string behind a media value (the nested case cannot be
produced by user-written markers). -/
def MediaV.flat : MediaV → String
  | .str s => s
  | .list l => String.intercalate "," l

/-- `len({x for x in l}) == 1` for strings: the list is non-empty and all
its elements coincide. -/
def allSameStr (l : List String) : Bool :=
  match l with
  | [] => false
  | n :: rest => rest.all (fun x => x = n)

/-- `len(set(l)) == 1` for media types. -/
def allSameMedia (l : List MediaV) : Bool :=
  match l with
  | [] => false
  | m :: rest => rest.all (fun x => x = m)

/-- The composite-assembly tail of `utils.get_body_field` (source lines
417-448): force `embed` on every body field, collect them into the
generated model's `__fields__` dict keyed by name, mark the composite
required if any sub-field is required, escalate the marker class to File if
any sub-field is a File field, else Form if any is a Form field, else Body,
and — Body case only — assign the whole list of sub-field media types to
`media_type` exactly when `len(set(media_types)) == 1`; the `media_type`
defaults to Body's `application/json` otherwise.  Validation of the
generated model is pydantic's, external to this development. -/
def bodyComposite (bodyParams : List Field) : Field :=
  let embedded := bodyParams.map setEmbedTrue
  let modelFields := embedded.foldl fieldDictSet []
  let required := embedded.any Field.required
  let kindMedia : BodyKind × Option (List MediaV) :=
    if embedded.any (fun f => f.info.isFile) then (BodyKind.fileK, Option.none)
    else if embedded.any (fun f => f.info.isForm) then (BodyKind.formK, Option.none)
    else
      let medias := embedded.filterMap
        (fun f => if f.info.isBody then some f.info.mediaOf else Option.none)
      if allSameMedia medias then (BodyKind.bodyK, some medias)
      else (BodyKind.bodyK, Option.none)
  let media : MediaV :=
    match kindMedia.2 with
    | some l => MediaV.list (l.map MediaV.flat)
    | Option.none => MediaV.str "application/json"
  Field.mk
    { name := "body"
      al := "body"
      required := required
      default := Val.none
      info := FInfo.body kindMedia.1 false media Option.none (some Val.none)
      shape := Shape.singleton
      ty := Ty.bodyModelTy }
    [] modelFields (fun v => Sum.inl v)

/-- `utils.get_body_field`: flatten the tree; with no body parameters
return nothing; with one distinct body-parameter *name* and no embed flag
return the first body field unchanged (`check_file_field` is an
import-environment check, a no-op here); otherwise force `embed` on every
body field, collect them into a generated model keyed by name, mark the
composite required if any sub-field is, escalate the marker class to File
or Form if any sub-field uses one, and for a plain Body composite assign
the whole list of sub-field media types as `media_type` exactly when they
all agree. -/
def get_body_field (fuel : Nat) (d : Dep) : Except Fault (Option Field) :=
  match get_flat_dependant fuel false d [] with
  | Except.error e => Except.error e
  | Except.ok (flat, _) =>
    match flat.bodyParams with
    | [] => Except.ok Option.none
    | first :: _ =>
      let embed := getEmbed first.info
      if allSameStr (flat.bodyParams.map Field.name) ∧ ¬ truthy embed then
        Except.ok (some first)
      else
        Except.ok (some (bodyComposite flat.bodyParams))

/-- The output of handler registration (`FlaskDependant.__call__`): the
built dependant tree plus the synthesized body field. -/
structure RouteSpec where
  dep : Dep
  bodyField : Option Field

/-- Handler registration (`app.FlaskDependant.__call__` for a handler with
no extra app-level dependencies): build the dependant graph, then the body
schema; any fault aborts registration before a request can be served. -/
def registerRoute (env : SigEnv) (fuel : Nat) (c : Nat) : Except Fault RouteSpec :=
  match get_dependant env fuel c Option.none true with
  | Except.error e => Except.error e
  | Except.ok dep =>
    match get_body_field fuel dep with
    | Except.error e => Except.error e
    | Except.ok bf => Except.ok ⟨dep, bf⟩

/-- `is_body_form` in `get_route_handler`. -/
def RouteSpec.isBodyForm (rs : RouteSpec) : Bool :=
  match rs.bodyField with
  | some f => f.info.isForm
  | Option.none => false

/-- The result of a Python `.get` lookup as the `value is None` test sees
it: a key that is absent and a key stored as `None` are indistinguishable. -/
def pyFlatten : Option Val → Option Val
  | some v => if v.isNoneV then Option.none else some v
  | Option.none => Option.none

/-- The per-field body of the `request_params_to_args` loop (source lines
626-654).  The received value map is a plain `dict` at both call sites
(`request.args.to_dict()`, `dict(request.headers)`, `.to_dict()` for
cookies, the path-params dict), so the multi-value branch's
`received_params.getList(field.alias)` is an attribute lookup that fails:
plain dicts have no `getList` (werkzeug's multi-dicts spell it `getlist`),
hence `attributeError`. -/
def bindParamField (getList : Bool) (received : List (String × Val))
    (acc : List (String × Val) × List Err) (f : Field) :
    Except Fault (List (String × Val) × List Err) :=
  let (values, errors) := acc
  match is_scalar_sequence_field f with
  | Option.none => Except.error Fault.recursionError
  | some isSeq =>
    if isSeq ∧ getList then Except.error Fault.attributeError
    else
      let value := pyFlatten (dictGet received f.aliasOf)
      -- line 633: assert isinstance(field_info, params.Param)
      if ¬ f.info.isParam then Except.error Fault.assertionError
      else
        -- line 640/647: (field_info.in_.value, field.alias); a missing in_
        -- would be an attribute error on None
        match f.info.inOf with
        | Option.none => Except.error Fault.attributeError
        | some src =>
          match value with
          | Option.none =>
            if f.required then
              Except.ok (values, errors ++ [⟨[src.value, f.aliasOf], ErrCause.missing⟩])
            else
              Except.ok (dictSet values f.name (deepcopy f.default), errors)
          | some v =>
            match f.validate v with
            | Sum.inl typed => Except.ok (dictSet values f.name typed, errors)
            | Sum.inr causes =>
              Except.ok (values, errors ++ wrapErrs [src.value, f.aliasOf] causes)

/-- `utils.request_params_to_args`: fold the per-field binder over the
classified fields, starting from empty values and errors. -/
def request_params_to_args (fields : List Field) (received : List (String × Val))
    (getList : Bool) : Except Fault (List (String × Val) × List Err) :=
  let rec go (acc : List (String × Val) × List Err) :
      List Field → Except Fault (List (String × Val) × List Err)
    | [] => Except.ok acc
    | f :: rest =>
      match bindParamField getList received acc f with
      | Except.error e => Except.error e
      | Except.ok acc' => go acc' rest
  go ([], []) fields

/-- `received_body.get(field.alias)` (source line 584): succeeds on a dict
payload; on any other payload the attribute lookup fails and the source
catches the AttributeError. -/
def pyDictGet : Val → String → Except Unit (Option Val)
  | Val.dict xs, k => Except.ok (dictGet xs k)
  | _, _ => Except.error ()

/-- The per-field body of the `request_body_to_args` loop (source lines
568-615).  `omitted` is `field_alias_omitted`, fixed from the first field;
`received` is the (possibly wrapped) body payload.  The multi-value branch
(`received_body.getlist`, line 581, reached only for form bodies) faults:
the form payload is `request.form.to_dict()`, a plain dict without
`getlist`. -/
def bindBodyField (omitted : Bool) (getList : Bool) (received : Val)
    (acc : List (String × Val) × List Err) (f : Field) :
    Except Fault (List (String × Val) × List Err) :=
  let (values, errors) := acc
  let loc : List String := if omitted then ["body"] else ["body", f.aliasOf]
  -- lines 575-587: determine the raw value
  let valueStep : Except Fault (Option Val ⊕ Unit) :=
    if received.isNoneV then Except.ok (Sum.inl Option.none)
    else if (f.shape ∈ sequence_shapes ∨ tyInSeqTypes f.ty) ∧ getList then
      Except.error Fault.attributeError
    else
      match pyDictGet received f.aliasOf with
      | Except.ok v => Except.ok (Sum.inl (pyFlatten v))
      | Except.error _ => Except.ok (Sum.inr ())  -- AttributeError caught: missing error, continue
  match valueStep with
  | Except.error e => Except.error e
  | Except.ok (Sum.inr _) =>
    Except.ok (values, errors ++ [⟨loc, ErrCause.missing⟩])
  | Except.ok (Sum.inl value) =>
    -- lines 588-601: the missing/empty cluster, with short-circuit `or`
    let missingStep : Except Fault Bool :=
      match value with
      | Option.none => Except.ok true
      | some v =>
        if f.info.isForm ∧ isEmptyStr v then Except.ok true
        else if f.info.isForm ∧ f.shape ∈ sequence_shapes then
          match pyLen v with
          | some n => Except.ok (n = 0)
          | Option.none => Except.error Fault.typeError  -- len() of an unsized value
        else Except.ok false
    match missingStep with
    | Except.error e => Except.error e
    | Except.ok true =>
      if f.required then
        Except.ok (values, errors ++ [⟨loc, ErrCause.missing⟩])
      else
        Except.ok (dictSet values f.name (deepcopy f.default), errors)
    | Except.ok false =>
      match value with
      | Option.none => Except.ok (values, errors)  -- unreachable: value present here
      | some v =>
        match f.validate v with
        | Sum.inl typed => Except.ok (dictSet values f.name typed, errors)
        | Sum.inr causes => Except.ok (values, errors ++ wrapErrs loc causes)

/-- `utils.request_body_to_args`: compute `field_alias_omitted` from the
first field; when set, rebind the whole payload as `{first.alias: body}`;
then fold the per-field binder over all fields. -/
def request_body_to_args (fields : List Field) (receivedBody : Val)
    (getList : Bool) : Except Fault (List (String × Val) × List Err) :=
  match fields with
  | [] => Except.ok ([], [])
  | first :: _ =>
    let omitted := fields.length = 1 ∧ ¬ truthy (getEmbed first.info)
    let received := if omitted then Val.dict [(first.aliasOf, receivedBody)] else receivedBody
    let rec go (acc : List (String × Val) × List Err) :
        List Field → Except Fault (List (String × Val) × List Err)
      | [] => Except.ok acc
      | f :: rest =>
        match bindBodyField omitted getList received acc f with
        | Except.error e => Except.error e
        | Except.ok acc' => go acc' rest
    go ([], []) fields

/-- A user callable at request time: whether it is a generator function
(`is_gen_callable`), and its behaviour on the keyword arguments it is
called with — `Except.error e` models the callable raising exception `e`
(for a generator, before reaching its yield). -/
structure CallSpec where
  gen : Bool
  fn : List (String × Val) → Except Nat Val

/-- The runtime environment: each callable identifier's behaviour. -/
def CallEnv := Nat → CallSpec

/-- The per-request inputs `solve_dependencies` binds against: the path
parameters passed by the router, `request.args.to_dict()`,
`dict(request.headers)`, `request.cookies.to_dict()`, the parsed body
payload (`Val.none` when there is none), and `is_body_form`. -/
structure Req where
  pathParams : List (String × Val)
  query : List (String × Val)
  headers : List (String × Val)
  cookies : List (String × Val)
  body : Val
  isBodyForm : Bool

/-- The static and dynamic context of one request. -/
structure Ctx where
  calls : CallEnv
  req : Req

/-- Observable events of one request, in order: a dependency callable's
body starting to run (`invoke`), a generator dependency reaching its yield
and being registered on the `ExitStack` (`enter`), the stack exiting a
generator's context at teardown (`cleanup`), a sub-dependency's resolved
value being determined — fresh or from cache — under its cache key
(`resolved`), and the handler callable being invoked (`handler`). -/
inductive Event where
  | invoke (c : Nat)
  | enter (c : Nat)
  | cleanup (c : Nat)
  | resolved (key : Option Nat) (v : Val)
  | handler

/-- Whether an event is the handler invocation. -/
def Event.isHandler : Event → Bool
  | .handler => true
  | _ => false

/-- The mutable request-scoped state threaded through the walk: the
dependency cache (keyed by `cache_key`), the `ExitStack`'s entered
generators in entry order, and the event trace. -/
structure RState where
  cache : List (Option Nat × Val)
  stack : List Nat
  trace : List Event

/-- `cache_key in dependency_cache` / `dependency_cache[cache_key]`. -/
def lookupCache (cache : List (Option Nat × Val)) (k : Option Nat) : Option Val :=
  match cache with
  | [] => Option.none
  | (k', v) :: rest => if k' = k then some v else lookupCache rest k

/-- The tail of the `solve_dependencies` child loop, after `solved` is
determined (source lines 514-517): record the resolved value, bind it under
the child's name if named, and store it under the cache key whenever the
key is absent — regardless of the occurrence's `use_cache` flag. -/
def solveRecord (sub : Dep) (s : RState) (values : List (String × Val))
    (errors : List Err) (v : Val) :
    RState × Except Fault (List (String × Val) × List Err) :=
  let s1 := { s with trace := s.trace ++ [Event.resolved sub.cacheKey v] }
  let values1 :=
    match sub.core.name with
    | some nm => dictSet values nm v
    | Option.none => values
  let s2 :=
    if (lookupCache s1.cache sub.cacheKey).isNone then
      { s1 with cache := s1.cache ++ [(sub.cacheKey, v)] }
    else s1
  (s2, Except.ok (values1, errors))

/-- The body of the `solve_dependencies` child loop (source lines 479-517),
parameterized by `recur`, the recursive solve at one fuel step less.  The
recursive call threads the same cache/stack state, so the source's
`dependency_cache.update(sub_dependency_cache)` is a no-op here.  A child
that produced errors contributes them and is skipped (`continue`) — its
callable is not invoked; otherwise the value comes from the cache (when
`use_cache` and present), from entering a generator on the shared stack, or
from a plain synchronous call. -/
def solveStep
    (recur : Dep → RState → RState × Except Fault (List (String × Val) × List Err))
    (ctx : Ctx) (s : RState) (values : List (String × Val)) (errors : List Err)
    (sub : Dep) : RState × Except Fault (List (String × Val) × List Err) :=
  match recur sub s with
  | (s1, Except.error f) => (s1, Except.error f)
  | (s1, Except.ok (subValues, subErrors)) =>
    if subErrors ≠ [] then (s1, Except.ok (values, errors ++ subErrors))
    else
      match (if sub.core.useCache then lookupCache s1.cache sub.cacheKey
             else Option.none) with
      | some v => solveRecord sub s1 values errors v
      | Option.none =>
        match sub.core.call with
        | Option.none => (s1, Except.error Fault.typeError)  -- None is not callable
        | some c =>
          let s2 := { s1 with trace := s1.trace ++ [Event.invoke c] }
          match (ctx.calls c).fn subValues with
          | Except.error e => (s2, Except.error (Fault.raised e))
          | Except.ok v =>
            if (ctx.calls c).gen then
              solveRecord sub
                { s2 with stack := s2.stack ++ [c], trace := s2.trace ++ [Event.enter c] }
                values errors v
            else
              solveRecord sub s2 values errors v

/-- The child loop of `solve_dependencies`: fold `solveStep` over the
node's dependencies, accumulating values and errors. -/
def solveSubs
    (recur : Dep → RState → RState × Except Fault (List (String × Val) × List Err))
    (ctx : Ctx) (s : RState) (values : List (String × Val)) (errors : List Err) :
    List Dep → RState × Except Fault (List (String × Val) × List Err)
  | [] => (s, Except.ok (values, errors))
  | sub :: rest =>
    match solveStep recur ctx s values errors sub with
    | (s1, Except.error f) => (s1, Except.error f)
    | (s1, Except.ok (v1, e1)) => solveSubs recur ctx s1 v1 e1 rest

/-- The tail of `solve_dependencies` (source lines 518-548): bind the
node's own path/query/header/cookie parameters (error order: query, header,
cookie, path), then its body parameters, then read
`dependant.response_param_name` — an `attributeError` when the slot was
never assigned — and inject the in-flight response when it names a
parameter. -/
def bindOwnParams (ctx : Ctx) (d : Dep) (s : RState)
    (values : List (String × Val)) (errors : List Err) :
    RState × Except Fault (List (String × Val) × List Err) :=
  match request_params_to_args d.core.pathParams ctx.req.pathParams false with
  | Except.error f => (s, Except.error f)
  | Except.ok (pathV, pathE) =>
    match request_params_to_args d.core.queryParams ctx.req.query true with
    | Except.error f => (s, Except.error f)
    | Except.ok (queryV, queryE) =>
      match request_params_to_args d.core.headerParams ctx.req.headers true with
      | Except.error f => (s, Except.error f)
      | Except.ok (headerV, headerE) =>
        match request_params_to_args d.core.cookieParams ctx.req.cookies false with
        | Except.error f => (s, Except.error f)
        | Except.ok (cookieV, cookieE) =>
          let values1 :=
            dictUpdate (dictUpdate (dictUpdate (dictUpdate values pathV) queryV)
              headerV) cookieV
          let errors1 := errors ++ (queryE ++ headerE ++ cookieE ++ pathE)
          let bodyStep : Except Fault (List (String × Val) × List Err) :=
            if d.core.bodyParams.isEmpty then Except.ok (values1, errors1)
            else
              match request_body_to_args d.core.bodyParams ctx.req.body
                  ctx.req.isBodyForm with
              | Except.error f => Except.error f
              | Except.ok (bodyV, bodyE) =>
                Except.ok (dictUpdate values1 bodyV, errors1 ++ bodyE)
          match bodyStep with
          | Except.error f => (s, Except.error f)
          | Except.ok (values2, errors2) =>
            match d.core.respAttr with
            | Option.none => (s, Except.error Fault.attributeError)
            | some Option.none => (s, Except.ok (values2, errors2))
            | some (some nm) =>
              (s, Except.ok (dictSet values2 nm Val.respObj, errors2))

/-- `utils.solve_dependencies`: resolve every child (collecting rather than
throwing their errors), then bind the node's own parameters.  Fuel bounds
the recursion depth; exhaustion models Python's RecursionError. -/
def solveOne (ctx : Ctx) : Nat → Dep → RState →
    RState × Except Fault (List (String × Val) × List Err)
  | 0, _, s => (s, Except.error Fault.recursionError)
  | n + 1, d, s =>
    match solveSubs (fun sub s' => solveOne ctx n sub s') ctx s [] [] d.deps with
    | (s1, Except.error f) => (s1, Except.error f)
    | (s1, Except.ok (v, e)) => bindOwnParams ctx d s1 v e

/-- The cleanup segment the `ExitStack` appends at teardown: the entered
generators' contexts are exited in reverse entry order. -/
def cleanupEvents (stack : List Nat) : List Event :=
  stack.reverse.map Event.cleanup

/-- The outcome of one request through the route handler. -/
inductive RouteOutcome where
  | success (v : Val)
  | handlerRaised (e : Nat)
  | validationError (errs : List Err)
  | fault (f : Fault)

/-- Whether the outcome is a resolver fault with the given cause. -/
def RouteOutcome.isFault : RouteOutcome → Fault → Bool
  | .fault f, f' => f = f'
  | _, _ => false

/-- `app.get_route_handler`'s wrapper, after body parsing: inside a
`with ExitStack()` block, solve the root dependant from empty state; a
non-empty aggregated error list raises `RequestValidationError` (handler
suppressed); otherwise the handler callable runs on the bound values.  The
stack unwinds — the cleanup segment runs — on every exit path: resolver
fault, validation error, handler return, and handler raise. -/
def runRoute (ctx : Ctx) (fuel : Nat) (root : Dep) : RouteOutcome × List Event :=
  match solveOne ctx fuel root ⟨[], [], []⟩ with
  | (s1, Except.error f) => (RouteOutcome.fault f, s1.trace ++ cleanupEvents s1.stack)
  | (s1, Except.ok (values, errors)) =>
    if errors.isEmpty then
      match root.core.call with
      | Option.none =>
        (RouteOutcome.fault Fault.typeError, s1.trace ++ cleanupEvents s1.stack)
      | some c =>
        match (ctx.calls c).fn values with
        | Except.ok v =>
          (RouteOutcome.success v, s1.trace ++ [Event.handler] ++ cleanupEvents s1.stack)
        | Except.error e =>
          (RouteOutcome.handlerRaised e,
           s1.trace ++ [Event.handler] ++ cleanupEvents s1.stack)
    else
      (RouteOutcome.validationError errors, s1.trace ++ cleanupEvents s1.stack)

/-- Whether the handler callable was invoked during the request. -/
def handlerInvoked (t : List Event) : Bool := t.any Event.isHandler

/-- The generators entered in a trace segment, in entry order. -/
def entersOf (t : List Event) : List Nat :=
  t.filterMap (fun ev => match ev with | Event.enter c => some c | _ => Option.none)

/-! ## Concrete inputs and theorems for the claims -/

/-- A signature environment with a single handler callable (id 0) that
declares no parameters at all — in particular no `Response`-typed one. -/
def c10Sig : SigEnv := fun _ => []

/-- A runtime context whose callables all succeed with `1` and whose
request carries no data. -/
def c10Ctx : Ctx :=
  ⟨fun _ => ⟨false, fun _ => Except.ok (Val.int 1)⟩,
   ⟨[], [], [], [], Val.none, false⟩⟩

/-- The dependant `get_dependant` builds for the no-parameter handler:
`request_param_name` is initialized (to `None`) but the
`response_param_name` slot is absent. -/
def c10Dep : Dep :=
  Dep.mk
    { name := Option.none, call := some 0, useCache := true
      respAttr := Option.none, requestParamName := Option.none
      pathParams := [], queryParams := [], headerParams := []
      cookieParams := [], bodyParams := [] } []

/-- Claim C10: the unconditional read of `dependant.response_param_name` at
the end of `solve_dependencies` is claimed to always succeed.  It does not:
the `Dependant` constructor initializes only `request_param_name`, and for
a callable with no `Response`-typed parameter
`add_non_field_param_to_dependency` never assigns `response_param_name`, so
the read raises AttributeError on every request — the resolution faults
with no binding error and the handler is never invoked. -/
theorem c10_response_attr_read_faults :
    get_dependant c10Sig 3 0 Option.none true = Except.ok c10Dep
    ∧ c10Dep.core.respAttr = Option.none
    ∧ c10Dep.core.requestParamName = Option.none
    ∧ (runRoute c10Ctx 5 c10Dep).1 = RouteOutcome.fault Fault.attributeError
    ∧ handlerInvoked (runRoute c10Ctx 5 c10Dep).2 = false :=
  ⟨rfl, rfl, rfl, rfl, rfl⟩

/-- A scalar-sequence query field (a `List[str]`-typed query parameter):
sequence shape, scalar element type. -/
def c9SeqField : Field :=
  Field.mk
    { name := "tags", al := "tags", required := true, default := Val.none
      info := FInfo.par ParamSrc.query (some ParamSrc.query) Option.none Option.none
      shape := Shape.list, ty := Ty.strTy }
    [] [] (tyValidate Ty.strTy)

/-- An ordinary scalar query field. -/
def c9ScalField : Field :=
  Field.mk
    { name := "q", al := "q", required := true, default := Val.none
      info := FInfo.par ParamSrc.query (some ParamSrc.query) Option.none Option.none
      shape := Shape.singleton, ty := Ty.strTy }
    [] [] (tyValidate Ty.strTy)

/-- Claim C9: sequence-shaped Query/Header fields are claimed to bind via a
multi-value lookup while binding always returns a `(values, errors)` pair
without raising.  The code instead evaluates
`received_params.getList(field.alias)` on the plain dicts passed at both
call sites (`request.args.to_dict()`, `dict(request.headers)`), which have
no `getList` attribute — binding a sequence-shaped query field raises
AttributeError instead of returning a pair, while the single-value path for
every other combination does return the pair. -/
theorem c9_getlist_attribute_fault :
    request_params_to_args [c9SeqField] [("tags", Val.str "a")] true =
      Except.error Fault.attributeError
    ∧ request_params_to_args [c9ScalField] [("q", Val.str "a")] true =
      Except.ok ([("q", Val.str "a")], []) :=
  ⟨rfl, rfl⟩

/-- A parameter declared as `tok: str = Header(..., alias="x_token")`: a
Header marker carrying an explicit, lower-case alias. -/
def c8Param : PParam :=
  ⟨"tok",
   PDefault.info (FInfo.par ParamSrc.header (some ParamSrc.header)
     (some "x_token") (some (Val.str "t"))),
   some Ty.strTy⟩

/-- Claim C8 counterexample: the claim says an explicit alias on a Header
marker is used verbatim; the code capitalizes the first character of the
alias whether it was inferred or explicit (source lines 316-317), so the
explicit alias `x_token` becomes the wire alias `X_token`. -/
theorem c8_counterexample :
    (get_param_field c8Param ParamSrc.path Option.none false).map Field.aliasOf =
      Except.ok "X_token"
    ∧ "X_token" ≠ "x_token" :=
  ⟨rfl, by decide⟩

/-- The effective alias before the Header capitalization (source lines
311-314 with `convert_underscores` absent): the explicit alias if given and
non-empty, else the parameter name. -/
def markerAlias (al : Option String) (name : String) : String :=
  match al with
  | some a => if a = "" then name else a
  | Option.none => name

/-- Claim C8 (amended): for a Header-marked parameter the explicit alias
wins over the parameter name, but the first character of the resulting
alias — whether inferred from the name or explicitly given — is then
capitalized to the wire convention; in particular an unaliased `x_token`
parameter binds against wire key `X_token`. -/
theorem c8_header_alias_amended (p : PParam) (in_ : Option ParamSrc)
    (al : Option String) (dv : Option Val)
    (hdef : p.default = PDefault.info (FInfo.par ParamSrc.header in_ al dv))
    (hne : markerAlias al p.name ≠ "") :
    (get_param_field p ParamSrc.path Option.none false).map Field.aliasOf =
      Except.ok (capFirst (markerAlias al p.name)) := by
  obtain ⟨nm, dflt, ann⟩ := p
  simp only [PParam.default] at hdef
  subst hdef
  simp only [markerAlias] at hne ⊢
  cases al with
  | none =>
    cases in_ <;>
      simp [get_param_field, FInfo.aliasOf, FInfo.isHeaderCls, convertUnderscores,
        FInfo.defaultOf, hne, Field.aliasOf, Field.data, Except.map]
  | some a =>
    by_cases ha : a = "" <;>
      cases in_ <;>
        simp [get_param_field, FInfo.aliasOf, FInfo.isHeaderCls, convertUnderscores,
          FInfo.defaultOf, ha, hne, Field.aliasOf, Field.data, Except.map] <;>
        simp_all

/-- Witness for the amended C8 theorem: the spec's own example, an
unaliased header parameter `x_token`, binds against `X_token`. -/
theorem c8_header_alias_amended_witness :
    (⟨"x_token", PDefault.info (FInfo.par ParamSrc.header (some ParamSrc.header)
        Option.none Option.none), some Ty.strTy⟩ : PParam).default =
      PDefault.info (FInfo.par ParamSrc.header (some ParamSrc.header)
        Option.none Option.none)
    ∧ markerAlias Option.none "x_token" ≠ ""
    ∧ (get_param_field
        ⟨"x_token", PDefault.info (FInfo.par ParamSrc.header (some ParamSrc.header)
          Option.none Option.none), some Ty.strTy⟩
        ParamSrc.path Option.none false).map Field.aliasOf =
      Except.ok (capFirst (markerAlias Option.none "x_token")) :=
  ⟨rfl, by decide,
   c8_header_alias_amended _ (some ParamSrc.header) Option.none Option.none rfl
     (by decide)⟩

/-- The marker class of a body marker. -/
def FInfo.bodyKindOf : FInfo → Option BodyKind
  | .par _ _ _ _ => Option.none
  | .body k _ _ _ _ => some k

theorem setEmbedTrue_name (f : Field) : (setEmbedTrue f).name = f.name := by
  obtain ⟨d, s, m, v⟩ := f
  cases h : d.info <;> simp [setEmbedTrue, Field.info, Field.data, h, Field.name]

theorem setEmbedTrue_required (f : Field) :
    (setEmbedTrue f).required = f.required := by
  obtain ⟨d, s, m, v⟩ := f
  cases h : d.info <;> simp [setEmbedTrue, Field.info, Field.data, h, Field.required]

theorem setEmbedTrue_isFile (f : Field) :
    (setEmbedTrue f).info.isFile = f.info.isFile := by
  obtain ⟨d, s, m, v⟩ := f
  cases h : d.info with
  | par => simp [setEmbedTrue, Field.info, Field.data, h]
  | body k e md a dv =>
    cases k <;> simp [setEmbedTrue, Field.info, Field.data, h, FInfo.isFile]

theorem setEmbedTrue_isForm (f : Field) :
    (setEmbedTrue f).info.isForm = f.info.isForm := by
  obtain ⟨d, s, m, v⟩ := f
  cases h : d.info with
  | par => simp [setEmbedTrue, Field.info, Field.data, h]
  | body k e md a dv =>
    cases k <;> simp [setEmbedTrue, Field.info, Field.data, h, FInfo.isForm]

theorem setEmbedTrue_isBody (f : Field) :
    (setEmbedTrue f).info.isBody = f.info.isBody := by
  obtain ⟨d, s, m, v⟩ := f
  cases h : d.info <;>
    simp [setEmbedTrue, Field.info, Field.data, h, FInfo.isBody]

theorem setEmbedTrue_mediaOf (f : Field) :
    (setEmbedTrue f).info.mediaOf = f.info.mediaOf := by
  obtain ⟨d, s, m, v⟩ := f
  cases h : d.info <;>
    simp [setEmbedTrue, Field.info, Field.data, h, FInfo.mediaOf]

theorem setEmbedTrue_embed (f : Field) (h : f.info.isBody = true) :
    getEmbed (setEmbedTrue f).info = some true := by
  obtain ⟨d, s, m, v⟩ := f
  cases hi : d.info with
  | par => simp [Field.info, Field.data, hi, FInfo.isBody] at h
  | body k e md a dv =>
    simp [setEmbedTrue, Field.info, Field.data, hi, getEmbed]

theorem fieldDictSet_append (acc : List Field) (f : Field)
    (h : f.name ∉ acc.map Field.name) : fieldDictSet acc f = acc ++ [f] := by
  induction acc with
  | nil => rfl
  | cons g rest ih =>
    simp only [List.map_cons, List.mem_cons] at h
    push_neg at h
    simp [fieldDictSet, Ne.symm h.1, ih h.2]

theorem foldl_fieldDictSet_eq (l : List Field) :
    ∀ acc, (∀ f ∈ l, f.name ∉ acc.map Field.name) →
    (l.map Field.name).Nodup →
    l.foldl fieldDictSet acc = acc ++ l := by
  induction l with
  | nil => intro acc _ _; simp
  | cons f rest ih =>
    intro acc hdisj hnodup
    simp only [List.map_cons, List.nodup_cons] at hnodup
    rw [List.foldl_cons, fieldDictSet_append acc f (hdisj f (by simp)),
      ih (acc ++ [f]) ?_ hnodup.2]
    · simp
    · intro g hg
      simp only [List.map_append, List.mem_append, List.map_cons]
      push_neg
      refine ⟨hdisj g (by simp [hg]), ?_⟩
      simp only [List.map_nil, List.mem_singleton]
      intro hgf
      exact hnodup.1 (hgf ▸ List.mem_map_of_mem Field.name hg)

/-- The first body field of the flattened C4 scenario: a single unembedded
JSON body parameter `item`. -/
def c4Field : Field :=
  Field.mk
    { name := "item", al := "item", required := true, default := Val.none
      info := FInfo.body BodyKind.bodyK false (MediaV.str "application/json")
        Option.none Option.none
      shape := Shape.singleton, ty := Ty.dictTy }
    [] [] (tyValidate Ty.dictTy)

/-- A dependant whose whole tree carries exactly the one body field
`c4Field`. -/
def c4Dep : Dep :=
  Dep.mk
    { name := Option.none, call := some 0, useCache := true
      respAttr := some Option.none, requestParamName := Option.none
      pathParams := [], queryParams := [], headerParams := []
      cookieParams := [], bodyParams := [c4Field] } []

/-- Claim C4: when the flattened body-parameter set is exactly one field
with no embed flag, the synthesizer returns that field unchanged, and the
binder treats the entire body payload as that field's raw value (validated
at location `("body",)`) instead of looking it up by alias. -/
theorem c4_single_unembedded_passthrough :
    (∀ (fuel : Nat) (d : Dep) (flat : DepCore) (vis : List (Option Nat)) (f : Field),
      get_flat_dependant fuel false d [] = Except.ok (flat, vis) →
      flat.bodyParams = [f] →
      truthy (getEmbed f.info) = false →
      get_body_field fuel d = Except.ok (some f))
    ∧ (∀ (f : Field) (body : Val) (gl : Bool),
      truthy (getEmbed f.info) = false →
      body.isNoneV = false →
      ¬ ((f.shape ∈ sequence_shapes ∨ tyInSeqTypes f.ty = true) ∧ gl = true) →
      (f.info.isForm = true →
        isEmptyStr body = false ∧ f.shape ∉ sequence_shapes) →
      request_body_to_args [f] body gl =
        Except.ok (match f.validate body with
          | Sum.inl typed => ([(f.name, typed)], [])
          | Sum.inr causes => ([], wrapErrs ["body"] causes))) := by
  constructor
  · intro fuel d flat vis f hflat hbody hembed
    simp [get_body_field, hflat, hbody, allSameStr, hembed]
  · intro f body gl hembed hbody hseq hform
    have hval : pyFlatten (some body) = some body := by
      cases body <;> simp_all [pyFlatten, Val.isNoneV]
    have hmiss1 : ¬ (f.info.isForm = true ∧ isEmptyStr body = true) := by
      rintro ⟨h1, h2⟩
      rcases hform h1 with ⟨he, _⟩
      simp [he] at h2
    have hmiss2 : ¬ (f.info.isForm = true ∧ f.shape ∈ sequence_shapes) := by
      rintro ⟨h1, h2⟩
      exact (hform h1).2 h2
    cases hv : f.validate body with
    | inl typed =>
      simp [request_body_to_args, request_body_to_args.go, bindBodyField,
        pyDictGet, dictGet, Val.isNoneV, hembed, hbody, hval, hseq, hmiss1,
        hmiss2, dictSet]
      rw [hv]
    | inr causes =>
      simp [request_body_to_args, request_body_to_args.go, bindBodyField,
        pyDictGet, dictGet, Val.isNoneV, hembed, hbody, hval, hseq, hmiss1,
        hmiss2, dictSet]
      rw [hv]

/-- The flattened aggregate of `c4Dep`. -/
def c4Flat : DepCore :=
  { name := Option.none, call := Option.none, useCache := true
    respAttr := Option.none, requestParamName := Option.none
    pathParams := [], queryParams := [], headerParams := []
    cookieParams := [], bodyParams := [c4Field] }

/-- A concrete JSON body payload. -/
def c4Body : Val := Val.dict [("a", Val.int 1)]

/-- Witness for C4: on the one-body-field tree `c4Dep` the synthesizer
passes `c4Field` through unchanged, and the binder hands the whole payload
`c4Body` to the field's validator. -/
theorem c4_single_unembedded_passthrough_witness :
    get_flat_dependant 3 false c4Dep [] = Except.ok (c4Flat, [some 0])
    ∧ c4Flat.bodyParams = [c4Field]
    ∧ truthy (getEmbed c4Field.info) = false
    ∧ get_body_field 3 c4Dep = Except.ok (some c4Field)
    ∧ c4Body.isNoneV = false
    ∧ request_body_to_args [c4Field] c4Body false =
        Except.ok (match c4Field.validate c4Body with
          | Sum.inl typed => ([(c4Field.name, typed)], [])
          | Sum.inr causes => ([], wrapErrs ["body"] causes)) :=
  ⟨rfl, rfl, rfl,
   c4_single_unembedded_passthrough.1 3 c4Dep c4Flat [some 0] c4Field rfl rfl rfl,
   rfl,
   c4_single_unembedded_passthrough.2 c4Field c4Body false rfl rfl
     (by simp) (fun h => absurd h (by decide))⟩

/-- The first of two same-named body fields. -/
def c5F1 : Field :=
  Field.mk
    { name := "data", al := "data", required := true, default := Val.none
      info := FInfo.body BodyKind.bodyK false (MediaV.str "application/json")
        Option.none Option.none
      shape := Shape.singleton, ty := Ty.dictTy }
    [] [] (tyValidate Ty.dictTy)

/-- The second body field, declared by a sub-dependency under the same
parameter name `data`. -/
def c5F2 : Field :=
  Field.mk
    { name := "data", al := "data", required := false, default := Val.none
      info := FInfo.body BodyKind.bodyK false (MediaV.str "text/plain")
        Option.none (some Val.none)
      shape := Shape.singleton, ty := Ty.strTy }
    [] [] (tyValidate Ty.strTy)

/-- A handler tree whose flattened body set holds the two same-named
fields: the handler declares `c5F1` and its sub-dependency declares
`c5F2`. -/
def c5Dep : Dep :=
  Dep.mk
    { name := Option.none, call := some 0, useCache := true
      respAttr := some Option.none, requestParamName := Option.none
      pathParams := [], queryParams := [], headerParams := []
      cookieParams := [], bodyParams := [c5F1] }
    [Dep.mk
      { name := some "sub", call := some 1, useCache := true
        respAttr := some Option.none, requestParamName := Option.none
        pathParams := [], queryParams := [], headerParams := []
        cookieParams := [], bodyParams := [c5F2] } []]

/-- Claim C5 counterexample: the flattened body set of `c5Dep` has two
fields, yet the synthesizer produces no composite — the "exactly one field"
test is `len(body_param_names_set) == 1`, a test on distinct *names*, and
both fields are named `data`; the first field comes back unchanged with its
embed flag still false. -/
theorem c5_counterexample :
    (get_flat_dependant 3 false c5Dep []).map (fun fc => fc.1.bodyParams.length) =
      Except.ok 2
    ∧ get_body_field 3 c5Dep = Except.ok (some c5F1)
    ∧ getEmbed c5F1.info = some false
    ∧ c5F1.name = "data" :=
  ⟨rfl, rfl, rfl, rfl⟩

/-- Claim C5 (amended): for a flattened body set of two or more fields with
pairwise-distinct names — or with embedding explicitly requested — the
synthesizer forces `embed` on every field and returns one composite: named
and aliased `body`, required iff some sub-field is required, its sub-field
dict exactly the flattened set (with embed set), its marker class escalated
to File, else Form, else Body, and — for a plain Body composite — the
`media_type` keyword receives the sub-fields' media types exactly when they
all agree. -/
theorem embedTrue_comp_name : Field.name ∘ setEmbedTrue = Field.name :=
  funext setEmbedTrue_name

theorem embedTrue_comp_required : Field.required ∘ setEmbedTrue = Field.required :=
  funext setEmbedTrue_required

theorem embedTrue_comp_isFile :
    (fun f => (setEmbedTrue f).info.isFile) = (fun f : Field => f.info.isFile) :=
  funext setEmbedTrue_isFile

theorem embedTrue_comp_isForm :
    (fun f => (setEmbedTrue f).info.isForm) = (fun f : Field => f.info.isForm) :=
  funext setEmbedTrue_isForm

theorem bodyComposite_nameAlias (l : List Field) :
    (bodyComposite l).name = "body" ∧ (bodyComposite l).aliasOf = "body" :=
  ⟨rfl, rfl⟩

theorem bodyComposite_required (l : List Field) :
    (bodyComposite l).required = l.any Field.required := by
  show (l.map setEmbedTrue).any Field.required = l.any Field.required
  rw [List.any_map, embedTrue_comp_required]

theorem bodyComposite_modelFields (l : List Field)
    (h : (l.map Field.name).Nodup) :
    (bodyComposite l).modelFields = l.map setEmbedTrue := by
  show (l.map setEmbedTrue).foldl fieldDictSet [] = l.map setEmbedTrue
  have hname : (l.map setEmbedTrue).map Field.name = l.map Field.name := by
    rw [List.map_map, embedTrue_comp_name]
  simpa using foldl_fieldDictSet_eq (l.map setEmbedTrue) [] (by simp)
    (hname ▸ h)

theorem bodyComposite_kind (l : List Field) :
    (bodyComposite l).info.bodyKindOf =
      some (if l.any (fun f => f.info.isFile) then BodyKind.fileK
        else if l.any (fun f => f.info.isForm) then BodyKind.formK
        else BodyKind.bodyK) := by
  show FInfo.bodyKindOf (FInfo.body _ false _ Option.none (some Val.none)) = _
  rw [FInfo.bodyKindOf]
  rw [List.any_map, List.any_map]
  simp only [Function.comp_def]
  rw [show (fun f => ((setEmbedTrue f).info.isFile : Bool)) =
        (fun f : Field => f.info.isFile) from embedTrue_comp_isFile,
      show (fun f => ((setEmbedTrue f).info.isForm : Bool)) =
        (fun f : Field => f.info.isForm) from embedTrue_comp_isForm]
  by_cases h1 : l.any (fun f => f.info.isFile) = true
  · simp only [h1, if_true]
  · by_cases h2 : l.any (fun f => f.info.isForm) = true
    · simp only [h1, h2, Bool.false_eq_true, if_false, if_true]
    · simp only [h1, h2, Bool.false_eq_true, if_false]
      split <;> rfl

theorem bodyComposite_media (l : List Field)
    (h1 : l.any (fun f => f.info.isFile) = false)
    (h2 : l.any (fun f => f.info.isForm) = false) :
    (bodyComposite l).info.mediaOf =
      (if allSameMedia (l.filterMap
          (fun f => if f.info.isBody then some f.info.mediaOf else Option.none))
       then MediaV.list ((l.filterMap
          (fun f => if f.info.isBody then some f.info.mediaOf else Option.none)).map
            MediaV.flat)
       else MediaV.str "application/json") := by
  have hfile : (l.map setEmbedTrue).any (fun f => f.info.isFile) = false := by
    rw [List.any_map]
    simp only [Function.comp_def]
    rw [show (fun f => ((setEmbedTrue f).info.isFile : Bool)) =
          (fun f : Field => f.info.isFile) from embedTrue_comp_isFile]
    exact h1
  have hform : (l.map setEmbedTrue).any (fun f => f.info.isForm) = false := by
    rw [List.any_map]
    simp only [Function.comp_def]
    rw [show (fun f => ((setEmbedTrue f).info.isForm : Bool)) =
          (fun f : Field => f.info.isForm) from embedTrue_comp_isForm]
    exact h2
  have hmedias : (l.map setEmbedTrue).filterMap
      (fun f => if f.info.isBody then some f.info.mediaOf else Option.none) =
      l.filterMap
        (fun f => if f.info.isBody then some f.info.mediaOf else Option.none) := by
    rw [List.filterMap_map]
    refine List.filterMap_congr (fun f _ => ?_)
    simp [Function.comp, setEmbedTrue_isBody, setEmbedTrue_mediaOf]
  show FInfo.mediaOf (FInfo.body _ false _ Option.none (some Val.none)) = _
  rw [FInfo.mediaOf]
  simp only [hfile, hform, Bool.false_eq_true, if_false, hmedias]
  by_cases hm : allSameMedia (l.filterMap
      (fun f => if f.info.isBody then some f.info.mediaOf else Option.none)) = true
  · simp only [hm, if_true]
  · simp only [hm, Bool.false_eq_true, if_false]

/-- Claim C5 (amended): for a flattened body set of two or more fields with
pairwise-distinct names — or with embedding explicitly requested — the
synthesizer forces `embed` on every field and returns one composite: named
and aliased `body`, required iff some sub-field is required, its sub-field
dict exactly the flattened set (with embed set true on each), its marker
class escalated to File, else Form, else Body, and — for a plain Body
composite — the `media_type` keyword receives the sub-fields' (all-equal)
media types exactly when they agree, and Body's default media type stands
otherwise. -/
theorem c5_composite_synthesis (fuel : Nat) (d : Dep) (flat : DepCore)
    (vis : List (Option Nat)) (first : Field) (rest : List Field)
    (hflat : get_flat_dependant fuel false d [] = Except.ok (flat, vis))
    (hbody : flat.bodyParams = first :: rest)
    (hnodup : ((first :: rest).map Field.name).Nodup)
    (htrigger : rest ≠ [] ∨ truthy (getEmbed first.info) = true) :
    get_body_field fuel d = Except.ok (some (bodyComposite (first :: rest)))
    ∧ (bodyComposite (first :: rest)).name = "body"
    ∧ (bodyComposite (first :: rest)).aliasOf = "body"
    ∧ (bodyComposite (first :: rest)).required = (first :: rest).any Field.required
    ∧ (bodyComposite (first :: rest)).modelFields = (first :: rest).map setEmbedTrue
    ∧ (∀ g ∈ (first :: rest), g.info.isBody = true →
        getEmbed (setEmbedTrue g).info = some true)
    ∧ (bodyComposite (first :: rest)).info.bodyKindOf =
        some (if (first :: rest).any (fun f => f.info.isFile) then BodyKind.fileK
          else if (first :: rest).any (fun f => f.info.isForm) then BodyKind.formK
          else BodyKind.bodyK)
    ∧ ((first :: rest).any (fun f => f.info.isFile) = false →
       (first :: rest).any (fun f => f.info.isForm) = false →
       (bodyComposite (first :: rest)).info.mediaOf =
         (if allSameMedia ((first :: rest).filterMap
             (fun f => if f.info.isBody then some f.info.mediaOf else Option.none))
          then MediaV.list (((first :: rest).filterMap
             (fun f => if f.info.isBody then some f.info.mediaOf else Option.none)).map
               MediaV.flat)
          else MediaV.str "application/json")) := by
  have hcond : ¬ (allSameStr ((first :: rest).map Field.name) = true
      ∧ ¬ truthy (getEmbed first.info) = true) := by
    rcases htrigger with h | h
    · rintro ⟨hall, -⟩
      obtain ⟨g, hg⟩ := List.exists_mem_of_ne_nil rest h
      simp only [List.map_cons, allSameStr, List.all_eq_true] at hall
      have := hall g.name (List.mem_map_of_mem Field.name hg)
      simp only [decide_eq_true_eq] at this
      simp only [List.map_cons, List.nodup_cons] at hnodup
      exact hnodup.1 (this ▸ List.mem_map_of_mem Field.name hg)
    · rintro ⟨-, hne⟩
      exact hne h
  refine ⟨?_, rfl, rfl, bodyComposite_required _, bodyComposite_modelFields _ hnodup,
    fun g _ hg => setEmbedTrue_embed g hg, bodyComposite_kind _,
    fun h1 h2 => bodyComposite_media _ h1 h2⟩
  simp only [get_body_field, hflat, hbody]
  rw [if_neg hcond]

/-- A required body field named `a`. -/
def c5WF1 : Field :=
  Field.mk
    { name := "a", al := "a", required := true, default := Val.none
      info := FInfo.body BodyKind.bodyK false (MediaV.str "application/json")
        Option.none Option.none
      shape := Shape.singleton, ty := Ty.intTy }
    [] [] (tyValidate Ty.intTy)

/-- An optional body field named `b`. -/
def c5WF2 : Field :=
  Field.mk
    { name := "b", al := "b", required := false, default := Val.none
      info := FInfo.body BodyKind.bodyK false (MediaV.str "application/json")
        Option.none (some Val.none)
      shape := Shape.singleton, ty := Ty.strTy }
    [] [] (tyValidate Ty.strTy)

/-- A handler tree with the two distinctly-named body fields. -/
def c5WDep : Dep :=
  Dep.mk
    { name := Option.none, call := some 0, useCache := true
      respAttr := some Option.none, requestParamName := Option.none
      pathParams := [], queryParams := [], headerParams := []
      cookieParams := [], bodyParams := [c5WF1, c5WF2] } []

/-- The flattened aggregate of `c5WDep`. -/
def c5WFlat : DepCore :=
  { name := Option.none, call := Option.none, useCache := true
    respAttr := Option.none, requestParamName := Option.none
    pathParams := [], queryParams := [], headerParams := []
    cookieParams := [], bodyParams := [c5WF1, c5WF2] }

/-- Witness for the amended C5 theorem on two distinctly-named body
fields. -/
theorem c5_composite_synthesis_witness :
    get_flat_dependant 3 false c5WDep [] = Except.ok (c5WFlat, [some 0])
    ∧ c5WFlat.bodyParams = c5WF1 :: [c5WF2]
    ∧ ((c5WF1 :: [c5WF2]).map Field.name).Nodup
    ∧ (([c5WF2] : List Field) ≠ [] ∨ truthy (getEmbed c5WF1.info) = true)
    ∧ get_body_field 3 c5WDep = Except.ok (some (bodyComposite (c5WF1 :: [c5WF2]))) :=
  ⟨rfl, rfl, by simp [c5WF1, c5WF2, Field.name, Field.data], Or.inl (by simp),
   (c5_composite_synthesis 3 c5WDep c5WFlat [some 0] c5WF1 [c5WF2] rfl rfl
     (by simp [c5WF1, c5WF2, Field.name, Field.data]) (Or.inl (by simp))).1⟩

/-- Claim C7: for a classified field whose alias is missing from its
source's value map, a required field records exactly one missing error at
`(source, alias)` and binds nothing, while an optional field binds a
`deepcopy` of its default under the field's name and records nothing — for
the four parameter sources and for (non-omitted) body fields alike. -/
theorem c7_missing_value_binding :
    (∀ (gl : Bool) (received values : List (String × Val)) (errors : List Err)
       (f : Field) (sb : Bool) (src : ParamSrc),
      is_scalar_sequence_field f = some sb →
      ¬ (sb = true ∧ gl = true) →
      f.info.isParam = true →
      f.info.inOf = some src →
      pyFlatten (dictGet received f.aliasOf) = Option.none →
      bindParamField gl received (values, errors) f =
        Except.ok (if f.required then
            (values, errors ++ [⟨[src.value, f.aliasOf], ErrCause.missing⟩])
          else (dictSet values f.name (deepcopy f.default), errors)))
    ∧ (∀ (gl : Bool) (m : List (String × Val)) (values : List (String × Val))
        (errors : List Err) (f : Field),
      ¬ ((f.shape ∈ sequence_shapes ∨ tyInSeqTypes f.ty = true) ∧ gl = true) →
      pyFlatten (dictGet m f.aliasOf) = Option.none →
      bindBodyField false gl (Val.dict m) (values, errors) f =
        Except.ok (if f.required then
            (values, errors ++ [⟨["body", f.aliasOf], ErrCause.missing⟩])
          else (dictSet values f.name (deepcopy f.default), errors))) := by
  constructor
  · intro gl received values errors f sb src hseq hnotseq hparam hin hmiss
    by_cases hr : f.required = true <;>
      simp [bindParamField, hseq, hnotseq, hparam, hin, hmiss, hr]
  · intro gl m values errors f hseq hmiss
    by_cases hr : f.required = true <;>
      simp [bindBodyField, Val.isNoneV, hseq, pyDictGet, hmiss, hr]

/-- A required query field used by the C7 witness. -/
def c7Field : Field :=
  Field.mk
    { name := "q", al := "q", required := true, default := Val.none
      info := FInfo.par ParamSrc.query (some ParamSrc.query) Option.none Option.none
      shape := Shape.singleton, ty := Ty.strTy }
    [] [] (tyValidate Ty.strTy)

/-- An optional body field used by the C7 witness. -/
def c7BodyField : Field :=
  Field.mk
    { name := "extra", al := "extra", required := false
      default := Val.str "dflt"
      info := FInfo.body BodyKind.bodyK true (MediaV.str "application/json")
        Option.none (some (Val.str "dflt"))
      shape := Shape.singleton, ty := Ty.strTy }
    [] [] (tyValidate Ty.strTy)

/-- Witness for C7: a required query field `q` missing from an empty query
map records the one error at `("query", "q")`; an optional embedded body
field `extra` missing from the body dict binds its (deep-copied) default. -/
theorem c7_missing_value_binding_witness :
    is_scalar_sequence_field c7Field = some false
    ∧ pyFlatten (dictGet [] c7Field.aliasOf) = Option.none
    ∧ bindParamField true [] ([], []) c7Field =
        Except.ok (if c7Field.required then
            ([], [] ++ [⟨[ParamSrc.query.value, c7Field.aliasOf], ErrCause.missing⟩])
          else (dictSet [] c7Field.name (deepcopy c7Field.default), []))
    ∧ pyFlatten (dictGet [("other", Val.int 3)] c7BodyField.aliasOf) = Option.none
    ∧ bindBodyField false false (Val.dict [("other", Val.int 3)]) ([], []) c7BodyField =
        Except.ok (if c7BodyField.required then
            ([], [] ++ [⟨["body", c7BodyField.aliasOf], ErrCause.missing⟩])
          else (dictSet [] c7BodyField.name (deepcopy c7BodyField.default), [])) :=
  ⟨rfl, rfl,
   c7_missing_value_binding.1 true [] [] [] c7Field false ParamSrc.query rfl
     (by simp) rfl rfl rfl,
   rfl,
   c7_missing_value_binding.2 false [("other", Val.int 3)] [] [] c7BodyField
     (by simp) rfl⟩

theorem dependantParamLoop_append
    (recur : Nat → Option String → Bool → Except Fault Dep)
    (xs ys : List PParam) :
    ∀ acc, dependantParamLoop recur acc (xs ++ ys) =
      match dependantParamLoop recur acc xs with
      | Except.error e => Except.error e
      | Except.ok acc' => dependantParamLoop recur acc' ys := by
  induction xs with
  | nil => intro acc; rfl
  | cons q rest ih =>
    intro acc
    show (match dependantParamStep recur acc q with
          | Except.error e => Except.error e
          | Except.ok a => dependantParamLoop recur a (rest ++ ys)) =
        match (match dependantParamStep recur acc q with
               | Except.error e => Except.error e
               | Except.ok a => dependantParamLoop recur a rest) with
        | Except.error e => Except.error e
        | Except.ok acc' => dependantParamLoop recur acc' ys
    cases dependantParamStep recur acc q with
    | error e => rfl
    | ok a => exact ih a

theorem dependantParamStep_aborts
    (recur : Nat → Option String → Bool → Except Fault Dep)
    (acc : DepCore × List Dep) (p : PParam)
    (hempty : p.default = PDefault.empty)
    (hann : isSubResponse (p.ann.getD Ty.anyTy) = false)
    (hns : ∀ f, get_param_field p ParamSrc.path (some ParamSrc.path) true =
      Except.ok f → is_scalar_field f = some false) :
    ∃ e, dependantParamStep recur acc p = Except.error e := by
  obtain ⟨nm, dflt, ann⟩ := p
  simp only [PParam.default] at hempty
  subst hempty
  cases hgpf : get_param_field ⟨nm, PDefault.empty, ann⟩ ParamSrc.path
      (some ParamSrc.path) true with
  | error e =>
    refine ⟨e, ?_⟩
    simp [dependantParamStep, hann, PDefault.isEmpty, hgpf]
  | ok f =>
    refine ⟨Fault.assertionError, ?_⟩
    have := hns f hgpf
    simp [dependantParamStep, hann, PDefault.isEmpty, hgpf, this]

/-- Claim C6: a callable declaring a parameter with no default and no
marker whose inferred field is not scalar (and whose annotation is not the
response sink) cannot be registered: `get_dependant` — and with it the
whole handler registration — fails with a build-time fault, before any
request is served. -/
theorem c6_build_time_failure (env : SigEnv) (fuel : Nat) (c : Nat)
    (name : Option String) (uc : Bool) (pre post : List PParam) (p : PParam)
    (hsig : env c = pre ++ p :: post)
    (hempty : p.default = PDefault.empty)
    (hann : isSubResponse (p.ann.getD Ty.anyTy) = false)
    (hns : ∀ f, get_param_field p ParamSrc.path (some ParamSrc.path) true =
      Except.ok f → is_scalar_field f = some false) :
    (∃ e, get_dependant env fuel c name uc = Except.error e)
    ∧ (∃ e, registerRoute env fuel c = Except.error e) := by
  have key : ∀ (nm : Option String) (u : Bool),
      ∃ e, get_dependant env fuel c nm u = Except.error e := by
    intro nm u
    cases fuel with
    | zero => exact ⟨Fault.recursionError, rfl⟩
    | succ n =>
      rw [get_dependant, hsig]
      rw [dependantParamLoop_append]
      cases hpre : dependantParamLoop (fun c' nm' uc' => get_dependant env n c' nm' uc')
          ({ name := nm, call := some c, useCache := u
             respAttr := Option.none, requestParamName := Option.none
             pathParams := [], queryParams := [], headerParams := []
             cookieParams := [], bodyParams := [] }, []) pre with
      | error e => exact ⟨e, rfl⟩
      | ok acc' =>
        obtain ⟨e, he⟩ := dependantParamStep_aborts
          (fun c' nm' uc' => get_dependant env n c' nm' uc') acc' p hempty hann hns
        refine ⟨e, ?_⟩
        show (match (match dependantParamStep
                (fun c' nm' uc' => get_dependant env n c' nm' uc') acc' p with
              | Except.error e' => Except.error e'
              | Except.ok a => dependantParamLoop
                  (fun c' nm' uc' => get_dependant env n c' nm' uc') a post) with
          | Except.error e' => Except.error (α := Dep) e'
          | Except.ok (core, subs) => Except.ok (Dep.mk core subs)) = Except.error e
        rw [he]
  refine ⟨key name uc, ?_⟩
  obtain ⟨e, he⟩ := key Option.none true
  exact ⟨e, by rw [registerRoute, he]⟩

/-- A handler signature with a single `payload` parameter: no default, no
marker, `dict`-typed — its inferred field is not scalar. -/
def c6Param : PParam := ⟨"payload", PDefault.empty, some Ty.dictTy⟩

/-- The signature environment for the C6 witness. -/
def c6Sig : SigEnv := fun _ => [c6Param]

/-- The field `get_param_field` infers for `c6Param` (reclassified to a
Body marker by line 328-329, hence non-scalar). -/
def c6Field : Field :=
  Field.mk
    { name := "payload", al := "payload", required := true, default := Val.none
      info := FInfo.body BodyKind.bodyK false (MediaV.str "application/json")
        Option.none Option.none
      shape := Shape.singleton, ty := Ty.dictTy }
    [] [] (tyValidate Ty.dictTy)

/-- Witness for C6: registering the `payload` handler aborts at build
time. -/
theorem c6_build_time_failure_witness :
    c6Sig 0 = [] ++ c6Param :: []
    ∧ c6Param.default = PDefault.empty
    ∧ isSubResponse (c6Param.ann.getD Ty.anyTy) = false
    ∧ (∃ e, get_dependant c6Sig 4 0 Option.none true = Except.error e)
    ∧ (∃ e, registerRoute c6Sig 4 0 = Except.error e) := by
  have hns : ∀ f, get_param_field c6Param ParamSrc.path (some ParamSrc.path) true =
      Except.ok f → is_scalar_field f = some false := by
    intro f h
    rw [show get_param_field c6Param ParamSrc.path (some ParamSrc.path) true =
      Except.ok c6Field from rfl] at h
    injection h with h'
    rw [← h']
    rfl
  exact ⟨rfl, rfl, rfl,
    (c6_build_time_failure c6Sig 4 0 Option.none true [] [] c6Param rfl rfl rfl hns).1,
    (c6_build_time_failure c6Sig 4 0 Option.none true [] [] c6Param rfl rfl rfl hns).2⟩

/-- The resolver's state discipline: from `s` to `s'` the trace only grows
by a segment `ts` that contains no cleanup and no handler event, the stack
grows by exactly the generators entered in `ts` (in order), and cache
entries are never lost. -/
def StateExt (s s' : RState) : Prop :=
  ∃ ts, s'.trace = s.trace ++ ts
    ∧ s'.stack = s.stack ++ entersOf ts
    ∧ (∀ c, Event.cleanup c ∉ ts)
    ∧ Event.handler ∉ ts
    ∧ (∀ q v, lookupCache s.cache q = some v → lookupCache s'.cache q = some v)

theorem entersOf_append (a b : List Event) :
    entersOf (a ++ b) = entersOf a ++ entersOf b :=
  List.filterMap_append a b _

theorem stateExt_refl (s : RState) : StateExt s s :=
  ⟨[], by simp, by simp [entersOf], by simp, by simp, fun _ _ h => h⟩

theorem stateExt_trans {s1 s2 s3 : RState} (h12 : StateExt s1 s2)
    (h23 : StateExt s2 s3) : StateExt s1 s3 := by
  obtain ⟨ts1, ht1, hs1, hc1, hh1, hm1⟩ := h12
  obtain ⟨ts2, ht2, hs2, hc2, hh2, hm2⟩ := h23
  refine ⟨ts1 ++ ts2, ?_, ?_, ?_, ?_, fun q v h => hm2 q v (hm1 q v h)⟩
  · rw [ht2, ht1, List.append_assoc]
  · rw [hs2, hs1, entersOf_append, List.append_assoc]
  · intro c
    simp only [List.mem_append, not_or]
    exact ⟨hc1 c, hc2 c⟩
  · simp only [List.mem_append, not_or]
    exact ⟨hh1, hh2⟩

theorem lookupCache_append (c r : List (Option Nat × Val)) (q : Option Nat) :
    lookupCache (c ++ r) q =
      match lookupCache c q with
      | some v => some v
      | Option.none => lookupCache r q := by
  induction c with
  | nil => rfl
  | cons kv rest ih =>
    obtain ⟨k', v'⟩ := kv
    by_cases h : k' = q <;> simp [lookupCache, h, ih]

theorem solveRecord_stateExt (sub : Dep) (s : RState)
    (values : List (String × Val)) (errors : List Err) (v : Val) :
    StateExt s (solveRecord sub s values errors v).1 := by
  unfold solveRecord
  by_cases h : (lookupCache s.cache sub.cacheKey).isNone
  · refine ⟨[Event.resolved sub.cacheKey v], by simp [h], ?_, by simp, by simp, ?_⟩
    · simp [entersOf, h]
    · intro q v' hq
      simp only [h, if_true]
      rw [lookupCache_append, hq]
  · refine ⟨[Event.resolved sub.cacheKey v], by simp [h], ?_, by simp, by simp, ?_⟩
    · simp [entersOf, h]
    · intro q v' hq
      simpa [h] using hq

theorem solveStep_stateExt
    (recur : Dep → RState → RState × Except Fault (List (String × Val) × List Err))
    (ctx : Ctx) (s : RState) (values : List (String × Val)) (errors : List Err)
    (sub : Dep) (Hrec : StateExt s (recur sub s).1) :
    StateExt s (solveStep recur ctx s values errors sub).1 := by
  unfold solveStep
  split
  · rename_i s1 f heq
    rw [heq] at Hrec
    exact Hrec
  · rename_i s1 subValues subErrors heq
    rw [heq] at Hrec
    split
    · exact Hrec
    · split
      · rename_i v hc
        exact stateExt_trans Hrec (solveRecord_stateExt sub s1 values errors v)
      · rename_i hc
        split
        · exact Hrec
        · rename_i c hcall
          split
          · rename_i e hfn
            exact stateExt_trans Hrec
              ⟨[Event.invoke c], by simp, by simp [entersOf], by simp, by simp,
               fun _ _ h => h⟩
          · rename_i v hfn
            split
            · have hmid : StateExt s1
                  { cache := s1.cache, stack := s1.stack ++ [c],
                    trace := s1.trace ++ [Event.invoke c] ++ [Event.enter c] } :=
                ⟨[Event.invoke c, Event.enter c], by simp, by simp [entersOf],
                 by simp, by simp, fun _ _ h => h⟩
              exact stateExt_trans Hrec (stateExt_trans hmid
                (solveRecord_stateExt sub _ values errors v))
            · have hmid : StateExt s1
                  { cache := s1.cache, stack := s1.stack,
                    trace := s1.trace ++ [Event.invoke c] } :=
                ⟨[Event.invoke c], by simp, by simp [entersOf],
                 by simp, by simp, fun _ _ h => h⟩
              exact stateExt_trans Hrec (stateExt_trans hmid
                (solveRecord_stateExt sub _ values errors v))

theorem solveSubs_stateExt
    (recur : Dep → RState → RState × Except Fault (List (String × Val) × List Err))
    (ctx : Ctx) (Hrec : ∀ sub s, StateExt s (recur sub s).1) :
    ∀ (subs : List Dep) (s : RState) (values : List (String × Val))
      (errors : List Err),
      StateExt s (solveSubs recur ctx s values errors subs).1 := by
  intro subs
  induction subs with
  | nil => intro s values errors; exact stateExt_refl s
  | cons sub rest ih =>
    intro s values errors
    show StateExt s (match solveStep recur ctx s values errors sub with
      | (s1, Except.error f) => (s1, Except.error f)
      | (s1, Except.ok (v1, e1)) => solveSubs recur ctx s1 v1 e1 rest).1
    cases hstep : solveStep recur ctx s values errors sub with
    | mk s1 r =>
      have hse : StateExt s s1 := by
        have := solveStep_stateExt recur ctx s values errors sub (Hrec sub s)
        rwa [hstep] at this
      cases r with
      | error f => exact hse
      | ok pr =>
        obtain ⟨v1, e1⟩ := pr
        exact stateExt_trans hse (ih s1 v1 e1)

theorem bindOwnParams_state (ctx : Ctx) (d : Dep) (s : RState)
    (values : List (String × Val)) (errors : List Err) :
    (bindOwnParams ctx d s values errors).1 = s := by
  unfold bindOwnParams
  repeat' split
  all_goals rfl

theorem solveOne_stateExt (ctx : Ctx) :
    ∀ (n : Nat) (d : Dep) (s : RState), StateExt s (solveOne ctx n d s).1 := by
  intro n
  induction n with
  | zero => intro d s; exact stateExt_refl s
  | succ m ih =>
    intro d s
    show StateExt s (match solveSubs (fun sub s' => solveOne ctx m sub s') ctx s [] []
        d.deps with
      | (s1, Except.error f) => (s1, Except.error f)
      | (s1, Except.ok (v, e)) => bindOwnParams ctx d s1 v e).1
    cases hsubs : solveSubs (fun sub s' => solveOne ctx m sub s') ctx s [] [] d.deps with
    | mk s1 r =>
      have hse : StateExt s s1 := by
        have := solveSubs_stateExt (fun sub s' => solveOne ctx m sub s') ctx
          (fun sub s' => ih sub s') d.deps s [] []
        rwa [hsubs] at this
      cases r with
      | error f => exact hse
      | ok pr =>
        obtain ⟨v, e⟩ := pr
        show StateExt s (bindOwnParams ctx d s1 v e).1
        rw [bindOwnParams_state ctx d s1 v e]
        exact hse

theorem entersOf_handler : entersOf [Event.handler] = [] := rfl

theorem cleanup_not_handler (l : List Nat) :
    ∀ ev ∈ l.reverse.map Event.cleanup, ev ≠ Event.handler := by
  intro ev hev
  obtain ⟨c, _, rfl⟩ := List.mem_map.1 hev
  intro h
  cases h

/-- Claim C3: on every request and every exit path — resolver fault,
aggregated validation errors (handler suppressed), handler return, handler
raise — the route handler's trace is a cleanup-free prefix followed by
exactly one cleanup per generator entered, in strict reverse entry order;
the handler event, when present, lies in the prefix, so every cleanup runs
after the handler body returns or raises.  Cleanup here is the `ExitStack`
exiting the generator's context at teardown (where a generator written with
`try/finally` runs its post-yield code). -/
theorem c3_scoped_cleanup (ctx : Ctx) (fuel : Nat) (root : Dep) :
    ∃ pre, (runRoute ctx fuel root).2 = pre ++ ((entersOf pre).reverse.map Event.cleanup)
      ∧ (∀ c, Event.cleanup c ∉ pre)
      ∧ (∀ ev ∈ (entersOf pre).reverse.map Event.cleanup, ev ≠ Event.handler) := by
  have hext := solveOne_stateExt ctx fuel root ⟨[], [], []⟩
  cases hsolve : solveOne ctx fuel root ⟨[], [], []⟩ with
  | mk s1 r =>
    unfold runRoute
    rw [hsolve] at hext ⊢
    obtain ⟨ts, htrace, hstack, hclean, hhand, -⟩ := hext
    simp only [List.nil_append] at htrace hstack
    cases r with
    | error f =>
      refine ⟨s1.trace, ?_, ?_, ?_⟩
      · show s1.trace ++ cleanupEvents s1.stack = _
        rw [cleanupEvents, hstack, htrace]
      · intro c
        rw [htrace]
        exact hclean c
      · rw [htrace, ← hstack]
        exact cleanup_not_handler s1.stack
    | ok pr =>
      obtain ⟨values, errors⟩ := pr
      dsimp only
      by_cases herr : errors.isEmpty = true
      · rw [if_pos herr]
        cases hcall : root.core.call with
        | none =>
          refine ⟨s1.trace, ?_, ?_, ?_⟩
          · show s1.trace ++ cleanupEvents s1.stack = _
            rw [cleanupEvents, hstack, htrace]
          · intro c
            rw [htrace]
            exact hclean c
          · rw [htrace, ← hstack]
            exact cleanup_not_handler s1.stack
        | some c =>
          dsimp only
          have hpre : entersOf (s1.trace ++ [Event.handler]) = s1.stack := by
            rw [entersOf_append, entersOf_handler, List.append_nil, htrace, hstack]
          have hnoclean : ∀ c', Event.cleanup c' ∉ s1.trace ++ [Event.handler] := by
            intro c'
            rw [htrace]
            simp only [List.mem_append, List.mem_singleton, not_or]
            exact ⟨hclean c', by intro h; cases h⟩
          cases hfn : (ctx.calls c).fn values with
          | ok v =>
            refine ⟨s1.trace ++ [Event.handler], ?_, hnoclean, ?_⟩
            · show s1.trace ++ [Event.handler] ++ cleanupEvents s1.stack = _
              rw [cleanupEvents, hpre]
            · rw [hpre]
              exact cleanup_not_handler s1.stack
          | error e =>
            refine ⟨s1.trace ++ [Event.handler], ?_, hnoclean, ?_⟩
            · show s1.trace ++ [Event.handler] ++ cleanupEvents s1.stack = _
              rw [cleanupEvents, hpre]
            · rw [hpre]
              exact cleanup_not_handler s1.stack
      · rw [if_neg herr]
        refine ⟨s1.trace, ?_, ?_, ?_⟩
        · show s1.trace ++ cleanupEvents s1.stack = _
          rw [cleanupEvents, hstack, htrace]
        · intro c
          rw [htrace]
          exact hclean c
        · rw [htrace, ← hstack]
          exact cleanup_not_handler s1.stack

theorem solveRecord_snd (sub : Dep) (s : RState) (values : List (String × Val))
    (errors : List Err) (v : Val) :
    (solveRecord sub s values errors v).2 =
      Except.ok ((match sub.core.name with
        | some nm => dictSet values nm v
        | Option.none => values), errors) := rfl

theorem solveSubs_append
    (recur : Dep → RState → RState × Except Fault (List (String × Val) × List Err))
    (ctx : Ctx) (xs ys : List Dep) :
    ∀ (s : RState) (values : List (String × Val)) (errors : List Err),
      solveSubs recur ctx s values errors (xs ++ ys) =
        match solveSubs recur ctx s values errors xs with
        | (s1, Except.ok (v1, e1)) => solveSubs recur ctx s1 v1 e1 ys
        | (s1, Except.error f) => (s1, Except.error f) := by
  induction xs with
  | nil => intro s values errors; rfl
  | cons sub rest ih =>
    intro s values errors
    show (match solveStep recur ctx s values errors sub with
          | (s1, Except.error f) => (s1, Except.error f)
          | (s1, Except.ok (v1, e1)) => solveSubs recur ctx s1 v1 e1 (rest ++ ys)) =
        match (match solveStep recur ctx s values errors sub with
               | (s1, Except.error f) => (s1, Except.error f)
               | (s1, Except.ok (v1, e1)) => solveSubs recur ctx s1 v1 e1 rest) with
        | (s1, Except.ok (v1, e1)) => solveSubs recur ctx s1 v1 e1 ys
        | (s1, Except.error f) => (s1, Except.error f)
    cases solveStep recur ctx s values errors sub with
    | mk s1 r =>
      cases r with
      | error f => rfl
      | ok pr =>
        obtain ⟨v1, e1⟩ := pr
        exact ih s1 v1 e1

theorem solveStep_errors_prefix
    (recur : Dep → RState → RState × Except Fault (List (String × Val) × List Err))
    (ctx : Ctx) (s : RState) (values : List (String × Val)) (errors : List Err)
    (sub : Dep) (s' : RState) (v' : List (String × Val)) (e' : List Err)
    (h : solveStep recur ctx s values errors sub = (s', Except.ok (v', e'))) :
    ∃ t, e' = errors ++ t := by
  unfold solveStep at h
  split at h
  · rw [Prod.mk.injEq] at h
    exact absurd h.2 (by simp)
  · rename_i s1 subValues subErrors heq
    split at h
    · rw [Prod.mk.injEq, Except.ok.injEq, Prod.mk.injEq] at h
      exact ⟨subErrors, h.2.2.symm⟩
    · split at h
      · rename_i v hc
        rw [Prod.ext_iff] at h
        have h2 := h.2
        rw [solveRecord_snd] at h2
        rw [Except.ok.injEq, Prod.mk.injEq] at h2
        exact ⟨[], by rw [← h2.2, List.append_nil]⟩
      · split at h
        · rw [Prod.mk.injEq] at h
          exact absurd h.2 (by simp)
        · rename_i c hcall
          split at h
          · rw [Prod.mk.injEq] at h
            exact absurd h.2 (by simp)
          · rename_i v hfn
            split at h
            all_goals
              rw [Prod.ext_iff] at h
              have h2 := h.2
              rw [solveRecord_snd] at h2
              rw [Except.ok.injEq, Prod.mk.injEq] at h2
              exact ⟨[], by rw [← h2.2, List.append_nil]⟩

theorem solveSubs_errors_prefix
    (recur : Dep → RState → RState × Except Fault (List (String × Val) × List Err))
    (ctx : Ctx) :
    ∀ (subs : List Dep) (s : RState) (values : List (String × Val))
      (errors : List Err) (s' : RState) (v' : List (String × Val)) (e' : List Err),
      solveSubs recur ctx s values errors subs = (s', Except.ok (v', e')) →
      ∃ t, e' = errors ++ t := by
  intro subs
  induction subs with
  | nil =>
    intro s values errors s' v' e' h
    rw [solveSubs, Prod.mk.injEq, Except.ok.injEq, Prod.mk.injEq] at h
    exact ⟨[], by rw [← h.2.2, List.append_nil]⟩
  | cons sub rest ih =>
    intro s values errors s' v' e' h
    rw [solveSubs] at h
    split at h
    · rw [Prod.mk.injEq] at h
      exact absurd h.2 (by simp)
    · rename_i s1 v1 e1 heq
      obtain ⟨t1, ht1⟩ := solveStep_errors_prefix recur ctx s values errors sub
        s1 v1 e1 heq
      obtain ⟨t2, ht2⟩ := ih s1 v1 e1 s' v' e' h
      exact ⟨t1 ++ t2, by rw [ht2, ht1, List.append_assoc]⟩

theorem bindOwnParams_errors_prefix (ctx : Ctx) (d : Dep) (s : RState)
    (values : List (String × Val)) (errors : List Err) (s' : RState)
    (v' : List (String × Val)) (e' : List Err)
    (h : bindOwnParams ctx d s values errors = (s', Except.ok (v', e'))) :
    ∃ t, e' = errors ++ t := by
  unfold bindOwnParams at h
  repeat' split at h
  all_goals
    first
    | (injection h with h1 h2; injection h2; done)
    | (injection h with h1 h2; injection h2; rename_i hpair;
       rw [Prod.mk.injEq] at hpair;
       first
       | exact ⟨_, hpair.2.symm⟩
       | exact ⟨_, by rw [← hpair.2, List.append_assoc]⟩)

theorem isHandler_eq_true_iff (ev : Event) :
    Event.isHandler ev = true ↔ ev = Event.handler := by
  cases ev <;> simp [Event.isHandler]

theorem handlerInvoked_of_noHandler (ts : List Event) (h : Event.handler ∉ ts) :
    handlerInvoked ts = false := by
  rw [handlerInvoked, List.any_eq_false]
  intro ev hev htrue
  rw [isHandler_eq_true_iff] at htrue
  subst htrue
  exact h hev

theorem handlerInvoked_cleanups (st : List Nat) :
    handlerInvoked (cleanupEvents st) = false := by
  apply handlerInvoked_of_noHandler
  intro hmem
  obtain ⟨c, -, hc⟩ := List.mem_map.1 hmem
  cases hc

theorem handlerInvoked_append (a b : List Event) :
    handlerInvoked (a ++ b) = (handlerInvoked a || handlerInvoked b) := by
  simp [handlerInvoked, List.any_append]

theorem runRoute_handler_gate (ctx : Ctx) (fuel : Nat) (root : Dep) (c : Nat)
    (hcall : root.core.call = some c) :
    handlerInvoked (runRoute ctx fuel root).2 = true ↔
      ∃ s' v, solveOne ctx fuel root ⟨[], [], []⟩ = (s', Except.ok (v, [])) := by
  have hext := solveOne_stateExt ctx fuel root ⟨[], [], []⟩
  cases hsolve : solveOne ctx fuel root ⟨[], [], []⟩ with
  | mk s1 r =>
    rw [hsolve] at hext
    obtain ⟨ts, htrace, -, -, hhand, -⟩ := hext
    simp only [List.nil_append] at htrace
    have hs1 : handlerInvoked s1.trace = false := by
      rw [htrace]
      exact handlerInvoked_of_noHandler ts hhand
    unfold runRoute
    rw [hsolve]
    cases r with
    | error f =>
      dsimp only
      constructor
      · intro habs
        rw [handlerInvoked_append, hs1, handlerInvoked_cleanups] at habs
        exact absurd habs (by simp)
      · rintro ⟨s', v, heq⟩
        injection heq with h1 h2
        injection h2
    | ok pr =>
      obtain ⟨values, errors⟩ := pr
      dsimp only
      by_cases herr : errors.isEmpty = true
      · have herr' : errors = [] := List.isEmpty_iff.mp herr
        subst herr'
        rw [if_pos herr, hcall]
        dsimp only
        cases hfn : (ctx.calls c).fn values with
        | ok v =>
          constructor
          · intro _
            exact ⟨s1, values, rfl⟩
          · intro _
            show handlerInvoked (s1.trace ++ [Event.handler] ++ cleanupEvents s1.stack) = true
            rw [handlerInvoked_append, handlerInvoked_append, hs1,
              handlerInvoked_cleanups]
            rfl
        | error e =>
          constructor
          · intro _
            exact ⟨s1, values, rfl⟩
          · intro _
            show handlerInvoked (s1.trace ++ [Event.handler] ++ cleanupEvents s1.stack) = true
            rw [handlerInvoked_append, handlerInvoked_append, hs1,
              handlerInvoked_cleanups]
            rfl
      · rw [if_neg herr]
        dsimp only
        constructor
        · intro habs
          rw [handlerInvoked_append, hs1, handlerInvoked_cleanups] at habs
          exact absurd habs (by simp)
        · rintro ⟨s', v, heq⟩
          injection heq with h1 h2
          injection h2 with h3
          rw [Prod.mk.injEq] at h3
          rw [h3.2] at herr
          exact absurd rfl herr

/-- Claim C1: binding and validation errors aggregate through the walk
without aborting it, and the handler runs exactly when the completed walk
aggregated no error.  Conjunct 1: an error-producing prefix of siblings
does not stop the remaining siblings — the loop continues from the reached
state with the accumulated values and errors.  Conjuncts 2 and 3: the child
loop and the node's own parameter binding only ever append to the incoming
error list (child errors are kept, never dropped, while later siblings and
the node's own parameters are still evaluated).  Conjunct 4: the handler
callable is invoked iff the full walk completed (no Python-level fault) with
an empty aggregated error list. -/
theorem c1_error_aggregation_and_handler_gate :
    (∀ (recur : Dep → RState → RState × Except Fault (List (String × Val) × List Err))
       (ctx : Ctx) (xs ys : List Dep) (s : RState) (values : List (String × Val))
       (errors : List Err),
      solveSubs recur ctx s values errors (xs ++ ys) =
        match solveSubs recur ctx s values errors xs with
        | (s1, Except.ok (v1, e1)) => solveSubs recur ctx s1 v1 e1 ys
        | (s1, Except.error f) => (s1, Except.error f))
    ∧ (∀ (recur : Dep → RState → RState × Except Fault (List (String × Val) × List Err))
        (ctx : Ctx) (subs : List Dep) (s : RState) (values : List (String × Val))
        (errors : List Err) (s' : RState) (v' : List (String × Val)) (e' : List Err),
      solveSubs recur ctx s values errors subs = (s', Except.ok (v', e')) →
      ∃ t, e' = errors ++ t)
    ∧ (∀ (ctx : Ctx) (d : Dep) (s : RState) (values : List (String × Val))
        (errors : List Err) (s' : RState) (v' : List (String × Val)) (e' : List Err),
      bindOwnParams ctx d s values errors = (s', Except.ok (v', e')) →
      ∃ t, e' = errors ++ t)
    ∧ (∀ (ctx : Ctx) (fuel : Nat) (root : Dep) (c : Nat),
      root.core.call = some c →
      (handlerInvoked (runRoute ctx fuel root).2 = true ↔
        ∃ s' v, solveOne ctx fuel root ⟨[], [], []⟩ = (s', Except.ok (v, [])))) :=
  ⟨fun recur ctx xs ys s values errors => solveSubs_append recur ctx xs ys s values errors,
   fun recur ctx subs s values errors s' v' e' h =>
     solveSubs_errors_prefix recur ctx subs s values errors s' v' e' h,
   fun ctx d s values errors s' v' e' h =>
     bindOwnParams_errors_prefix ctx d s values errors s' v' e' h,
   fun ctx fuel root c hcall => runRoute_handler_gate ctx fuel root c hcall⟩

/-- A required query field `q` for the C1 witness scenario. -/
def c1Field : Field :=
  Field.mk
    { name := "q", al := "q", required := true, default := Val.none
      info := FInfo.par ParamSrc.query (some ParamSrc.query) Option.none Option.none
      shape := Shape.singleton, ty := Ty.strTy }
    [] [] (tyValidate Ty.strTy)

/-- A child dependency whose own binding fails: it requires query `q`,
absent from the request. -/
def c1SubBad : Dep :=
  Dep.mk
    { name := some "a", call := some 1, useCache := true
      respAttr := some Option.none, requestParamName := Option.none
      pathParams := [], queryParams := [c1Field], headerParams := []
      cookieParams := [], bodyParams := [] } []

/-- A later sibling with no parameters of its own. -/
def c1SubGood : Dep :=
  Dep.mk
    { name := some "b", call := some 2, useCache := true
      respAttr := some Option.none, requestParamName := Option.none
      pathParams := [], queryParams := [], headerParams := []
      cookieParams := [], bodyParams := [] } []

/-- The root handler with the failing child before the succeeding one. -/
def c1Root : Dep :=
  Dep.mk
    { name := Option.none, call := some 0, useCache := true
      respAttr := some Option.none, requestParamName := Option.none
      pathParams := [], queryParams := [], headerParams := []
      cookieParams := [], bodyParams := [] } [c1SubBad, c1SubGood]

/-- A context with an empty request; callable `c` returns the integer `c`. -/
def c1Ctx : Ctx :=
  ⟨fun c => ⟨false, fun _ => Except.ok (Val.int c)⟩,
   ⟨[], [], [], [], Val.none, false⟩⟩

/-- The state after the two children of `c1Root` are processed: callable 2
was invoked and cached even though its earlier sibling failed binding. -/
def c1S1 : RState :=
  ⟨[(some 2, Val.int 2)], [],
   [Event.invoke 2, Event.resolved (some 2) (Val.int 2)]⟩

/-- The values bound after the child loop: only the succeeding sibling. -/
def c1V : List (String × Val) := [("b", Val.int 2)]

/-- The aggregated errors: the failing child's missing query `q`. -/
def c1E : List Err := [⟨["query", "q"], ErrCause.missing⟩]

/-- Witness for C1: with a failing first child, the sibling loop still
resolves the second child (its value is bound and cached), the error list
is exactly the failing child's, handler invocation is gated on the empty
error list, and here — errors present — the handler does not run. -/
theorem c1_error_aggregation_and_handler_gate_witness :
    solveSubs (fun sub s => solveOne c1Ctx 3 sub s) c1Ctx ⟨[], [], []⟩ [] []
        ([c1SubBad] ++ [c1SubGood]) =
      (match solveSubs (fun sub s => solveOne c1Ctx 3 sub s) c1Ctx ⟨[], [], []⟩ [] []
          [c1SubBad] with
       | (s1, Except.ok (v1, e1)) =>
         solveSubs (fun sub s => solveOne c1Ctx 3 sub s) c1Ctx s1 v1 e1 [c1SubGood]
       | (s1, Except.error f) => (s1, Except.error f))
    ∧ solveSubs (fun sub s => solveOne c1Ctx 3 sub s) c1Ctx ⟨[], [], []⟩ [] []
        [c1SubBad, c1SubGood] = (c1S1, Except.ok (c1V, c1E))
    ∧ (∃ t, c1E = [] ++ t)
    ∧ bindOwnParams c1Ctx c1Root c1S1 c1V c1E = (c1S1, Except.ok (c1V, c1E))
    ∧ (∃ t, c1E = c1E ++ t)
    ∧ c1Root.core.call = some 0
    ∧ (handlerInvoked (runRoute c1Ctx 4 c1Root).2 = true ↔
        ∃ s' v, solveOne c1Ctx 4 c1Root ⟨[], [], []⟩ = (s', Except.ok (v, [])))
    ∧ handlerInvoked (runRoute c1Ctx 4 c1Root).2 = false :=
  ⟨c1_error_aggregation_and_handler_gate.1 (fun sub s => solveOne c1Ctx 3 sub s)
     c1Ctx [c1SubBad] [c1SubGood] ⟨[], [], []⟩ [] [],
   rfl,
   c1_error_aggregation_and_handler_gate.2.1 (fun sub s => solveOne c1Ctx 3 sub s)
     c1Ctx [c1SubBad, c1SubGood] ⟨[], [], []⟩ [] [] c1S1 c1V c1E rfl,
   rfl,
   c1_error_aggregation_and_handler_gate.2.2.1 c1Ctx c1Root c1S1 c1V c1E c1S1
     c1V c1E rfl,
   rfl,
   c1_error_aggregation_and_handler_gate.2.2.2 c1Ctx 4 c1Root 0 rfl,
   rfl⟩

/-- Every occurrence of cache key `k` in the dependency tree below the node
is cache-enabled (`use_cache=true`). -/
inductive AllUC (k : Nat) : Dep → Prop where
  | node : ∀ (core : DepCore) (deps : List Dep),
      (∀ sub ∈ deps, sub.core.call = some k → sub.core.useCache = true) →
      (∀ sub, sub ∈ deps → AllUC k sub) →
      AllUC k (Dep.mk core deps)

/-- How many times callable `k`'s body started running in a trace
segment. -/
def invokeCount (k : Nat) (t : List Event) : Nat :=
  (t.filter (fun ev => match ev with
    | Event.invoke c => c == k
    | _ => false)).length

/-- 1 when key `k` is present in the request cache. -/
def cachedWeight (k : Nat) (s : RState) : Nat :=
  if (lookupCache s.cache (some k)).isSome then 1 else 0

/-- Every recorded resolution of key `k` matches the cached value. -/
def CacheProp (k : Nat) (s : RState) : Prop :=
  ∀ v, Event.resolved (some k) v ∈ s.trace → lookupCache s.cache (some k) = some v

/-- The caching discipline of one resolver move from state `s` to result
`res`: cache entries persist, resolved-value records stay consistent with
the cache, and the number of fresh invocations of `k` is bounded by the
cache-presence growth — with one final invocation allowed on a faulting
(walk-terminating) move. -/
def CacheStep (k : Nat) (s : RState)
    (res : RState × Except Fault (List (String × Val) × List Err)) : Prop :=
  (∀ q v, lookupCache s.cache q = some v → lookupCache res.1.cache q = some v)
  ∧ (CacheProp k s → CacheProp k res.1)
  ∧ ∃ ts, res.1.trace = s.trace ++ ts
      ∧ (match res.2 with
         | Except.ok _ => invokeCount k ts + cachedWeight k s ≤ cachedWeight k res.1
         | Except.error _ => invokeCount k ts + cachedWeight k s ≤ 1)

theorem cachedWeight_le_one (k : Nat) (s : RState) : cachedWeight k s ≤ 1 := by
  rw [cachedWeight]
  split <;> simp

theorem invokeCount_append (k : Nat) (a b : List Event) :
    invokeCount k (a ++ b) = invokeCount k a + invokeCount k b := by
  rw [invokeCount, invokeCount, invokeCount, List.filter_append, List.length_append]

theorem cachedWeight_mono (k : Nat) (s s' : RState)
    (h : ∀ q v, lookupCache s.cache q = some v → lookupCache s'.cache q = some v) :
    cachedWeight k s ≤ cachedWeight k s' := by
  rw [cachedWeight, cachedWeight]
  split
  · rename_i hsome
    obtain ⟨v, hv⟩ := Option.isSome_iff_exists.1 hsome
    rw [h (some k) v hv]
    simp
  · simp

theorem cacheStep_okRefl (k : Nat) (s : RState) (x : List (String × Val) × List Err) :
    CacheStep k s (s, Except.ok x) :=
  ⟨fun _ _ h => h, fun h => h, [], by simp, by simp [invokeCount]⟩

theorem cacheStep_errRefl (k : Nat) (s : RState) (f : Fault) :
    CacheStep k s (s, Except.error f) :=
  ⟨fun _ _ h => h, fun h => h, [], by simp,
   by simpa [invokeCount] using cachedWeight_le_one k s⟩

theorem cacheStep_trans {k : Nat} {s m : RState}
    {x : List (String × Val) × List Err}
    {res : RState × Except Fault (List (String × Val) × List Err)}
    (h1 : CacheStep k s (m, Except.ok x)) (h2 : CacheStep k m res) :
    CacheStep k s res := by
  obtain ⟨mono1, prop1, ts1, ht1, hw1⟩ := h1
  obtain ⟨mono2, prop2, ts2, ht2, hw2⟩ := h2
  refine ⟨fun q v h => mono2 q v (mono1 q v h), fun h => prop2 (prop1 h),
    ts1 ++ ts2, ?_, ?_⟩
  · rw [ht2, ht1, List.append_assoc]
  · rw [invokeCount_append]
    simp only at hw1
    cases hres : res.2 with
    | ok y =>
      rw [hres] at hw2
      simp only at hw2
      omega
    | error f =>
      rw [hres] at hw2
      simp only at hw2
      omega

theorem invokeCount_resolved (k : Nat) (q : Option Nat) (v : Val) :
    invokeCount k [Event.resolved q v] = 0 := rfl

theorem invokeCount_invoke (k c : Nat) :
    invokeCount k [Event.invoke c] = if c = k then 1 else 0 := by
  by_cases h : c = k
  · subst h
    simp [invokeCount, List.filter]
  · have hbeq : (c == k) = false := beq_eq_false_iff_ne.2 h
    simp [invokeCount, List.filter, hbeq, h]

theorem lookupCache_single_self (q : Option Nat) (v : Val) :
    lookupCache [(q, v)] q = some v := by
  simp [lookupCache]

theorem solveRecord_cacheStep (k : Nat) (sub : Dep) (s : RState)
    (values : List (String × Val)) (errors : List Err) (v : Val)
    (hkey : sub.cacheKey = some k →
      lookupCache s.cache (some k) = Option.none ∨
      lookupCache s.cache (some k) = some v) :
    CacheStep k s (solveRecord sub s values errors v) := by
  unfold solveRecord
  dsimp only
  by_cases hstore : (lookupCache s.cache sub.cacheKey).isNone = true
  · rw [if_pos hstore]
    have hmono : ∀ q w, lookupCache s.cache q = some w →
        lookupCache (s.cache ++ [(sub.cacheKey, v)]) q = some w := by
      intro q w h
      rw [lookupCache_append, h]
    refine ⟨hmono, ?_, [Event.resolved sub.cacheKey v], rfl, ?_⟩
    · intro hp w hw
      dsimp only at hw ⊢
      rw [List.mem_append] at hw
      rcases hw with hold | hnew
      · exact hmono (some k) w (hp w hold)
      · rw [List.mem_singleton] at hnew
        injection hnew with h1 h2
        subst h2
        rcases hkey h1.symm with hnone | hsome
        · rw [lookupCache_append, ← h1] at *
          rw [hnone]
          exact lookupCache_single_self (some k) w
        · rw [← h1] at hstore
          rw [hsome] at hstore
          simp at hstore
    · dsimp only
      rw [invokeCount_resolved]
      have := cachedWeight_mono k s ⟨s.cache ++ [(sub.cacheKey, v)], s.stack,
        s.trace ++ [Event.resolved sub.cacheKey v]⟩ (by intro q w h; exact hmono q w h)
      simpa using this
  · rw [if_neg hstore]
    refine ⟨fun q w h => h, ?_, [Event.resolved sub.cacheKey v], rfl, ?_⟩
    · intro hp w hw
      dsimp only at hw ⊢
      rw [List.mem_append] at hw
      rcases hw with hold | hnew
      · exact hp w hold
      · rw [List.mem_singleton] at hnew
        injection hnew with h1 h2
        subst h2
        rcases hkey h1.symm with hnone | hsome
        · rw [← h1, hnone] at hstore
          simp at hstore
        · exact hsome
    · dsimp only
      rw [invokeCount_resolved]
      show 0 + cachedWeight k s ≤ cachedWeight k s
      omega

theorem cacheStep_ok_err {k : Nat} {s m : RState}
    {x : List (String × Val) × List Err}
    (h : CacheStep k s (m, Except.ok x)) (f : Fault) :
    CacheStep k s (m, Except.error f) := by
  obtain ⟨mono, prop, ts, ht, hw⟩ := h
  simp only at hw
  refine ⟨mono, prop, ts, ht, ?_⟩
  simp only
  have := cachedWeight_le_one k m
  omega

theorem invoke_record_cacheStep (k : Nat) (sub : Dep) (s1 smid : RState)
    (extra : List Event)
    (values : List (String × Val)) (errors : List Err) (v : Val)
    (hmidc : smid.cache = s1.cache)
    (hmidt : smid.trace = s1.trace ++ extra)
    (hkeyk : sub.cacheKey = some k → lookupCache s1.cache (some k) = Option.none)
    (hcnt1 : invokeCount k extra ≤ 1)
    (hck : invokeCount k extra = 1 → sub.cacheKey = some k)
    (hnores : ∀ w, Event.resolved (some k) w ∉ extra) :
    CacheStep k s1 (solveRecord sub smid values errors v) := by
  unfold solveRecord
  dsimp only
  rw [hmidc, hmidt]
  by_cases hstore : (lookupCache s1.cache sub.cacheKey).isNone = true
  · rw [if_pos hstore]
    have hmono : ∀ q w, lookupCache s1.cache q = some w →
        lookupCache (s1.cache ++ [(sub.cacheKey, v)]) q = some w := by
      intro q w h
      rw [lookupCache_append, h]
    refine ⟨hmono, ?_, extra ++ [Event.resolved sub.cacheKey v],
      by dsimp only; rw [List.append_assoc], ?_⟩
    · intro hp w hw
      dsimp only at hw ⊢
      rw [List.append_assoc, List.mem_append] at hw
      rcases hw with hold | hnew
      · exact hmono (some k) w (hp w hold)
      · rw [List.mem_append, List.mem_singleton] at hnew
        rcases hnew with hex | hone
        · exact absurd hex (hnores w)
        · injection hone with h1 h2
          subst h2
          have hnone := hkeyk h1.symm
          rw [lookupCache_append, ← h1, hnone]
          exact lookupCache_single_self (some k) w
    · dsimp only
      rw [invokeCount_append, invokeCount_resolved]
      rcases Nat.lt_or_ge (invokeCount k extra) 1 with hlt | hge
      · have h0 : invokeCount k extra = 0 := by omega
        have hcw : cachedWeight k ⟨s1.cache ++ [(sub.cacheKey, v)],
            smid.stack, s1.trace ++ extra ++ [Event.resolved sub.cacheKey v]⟩ ≥
            cachedWeight k s1 :=
          cachedWeight_mono k s1 _ (fun q w h => hmono q w h)
        omega
      · have h1 : invokeCount k extra = 1 := by omega
        have hkk := hck h1
        have hnone := hkeyk hkk
        have hw0 : cachedWeight k s1 = 0 := by
          rw [cachedWeight, hnone]
          rfl
        have hw1 : cachedWeight k ⟨s1.cache ++ [(sub.cacheKey, v)], smid.stack,
            s1.trace ++ extra ++ [Event.resolved sub.cacheKey v]⟩ = 1 := by
          rw [cachedWeight]
          dsimp only
          rw [lookupCache_append, hkk, hnone, lookupCache_single_self]
          rfl
        omega
  · rw [if_neg hstore]
    have hkeyimp : sub.cacheKey = some k → False := by
      intro hk
      rw [hk, hkeyk hk] at hstore
      simp at hstore
    refine ⟨fun q w h => h, ?_, extra ++ [Event.resolved sub.cacheKey v],
      by dsimp only; rw [List.append_assoc], ?_⟩
    · intro hp w hw
      dsimp only at hw ⊢
      rw [List.append_assoc, List.mem_append] at hw
      rcases hw with hold | hnew
      · exact hp w hold
      · rw [List.mem_append, List.mem_singleton] at hnew
        rcases hnew with hex | hone
        · exact absurd hex (hnores w)
        · injection hone with h1 h2
          exact absurd h1.symm hkeyimp
    · dsimp only
      rw [invokeCount_append, invokeCount_resolved]
      have h0 : invokeCount k extra = 0 := by
        by_contra hne
        have h1 : invokeCount k extra = 1 := by omega
        exact hkeyimp (hck h1)
      have hcw : cachedWeight k ⟨s1.cache, smid.stack,
          s1.trace ++ extra ++ [Event.resolved sub.cacheKey v]⟩ =
          cachedWeight k s1 := rfl
      omega

theorem cacheKey_eq_call (sub : Dep) : sub.cacheKey = sub.core.call := rfl

theorem solveStep_cacheStep (k : Nat)
    (recur : Dep → RState → RState × Except Fault (List (String × Val) × List Err))
    (ctx : Ctx) (s : RState) (values : List (String × Val)) (errors : List Err)
    (sub : Dep)
    (Hrec : CacheStep k s (recur sub s))
    (hsub : sub.core.call = some k → sub.core.useCache = true) :
    CacheStep k s (solveStep recur ctx s values errors sub) := by
  unfold solveStep
  split
  · rename_i s1 f heq
    rw [heq] at Hrec
    exact Hrec
  · rename_i s1 subValues subErrors heq
    rw [heq] at Hrec
    split
    · exact Hrec
    · split
      · rename_i v hc
        have hlook : lookupCache s1.cache sub.cacheKey = some v := by
          by_cases hu : sub.core.useCache = true
          · rw [if_pos hu] at hc
            exact hc
          · rw [if_neg hu] at hc
            cases hc
        exact cacheStep_trans Hrec (solveRecord_cacheStep k sub s1 values errors v
          (fun hk => Or.inr (by rw [← hk]; exact hlook)))
      · rename_i hc
        split
        · exact cacheStep_ok_err Hrec Fault.typeError
        · rename_i c hcall
          have hknone : c = k → lookupCache s1.cache (some k) = Option.none := by
            intro hck
            subst hck
            have huc := hsub hcall
            rw [if_pos huc, cacheKey_eq_call, hcall] at hc
            exact hc
          have hkeyk : sub.cacheKey = some k →
              lookupCache s1.cache (some k) = Option.none := by
            intro hk
            rw [cacheKey_eq_call, hcall] at hk
            injection hk with hck
            exact hknone hck
          split
          · rename_i e hfn
            refine cacheStep_trans Hrec ⟨fun q w h => h, ?_, [Event.invoke c], rfl, ?_⟩
            · intro hp w hw
              dsimp only at hw ⊢
              rw [List.mem_append, List.mem_singleton] at hw
              rcases hw with hold | hone
              · exact hp w hold
              · cases hone
            · dsimp only
              rw [invokeCount_invoke]
              by_cases hck : c = k
              · rw [if_pos hck]
                have h0 : cachedWeight k s1 = 0 := by
                  rw [cachedWeight, hknone hck]
                  rfl
                omega
              · rw [if_neg hck]
                have := cachedWeight_le_one k s1
                omega
          · rename_i v hfn
            split
            · refine cacheStep_trans Hrec
                (invoke_record_cacheStep k sub s1 _
                  [Event.invoke c, Event.enter c] values errors v rfl
                  (by dsimp only; simp) hkeyk ?_ ?_ ?_)
              · rw [show ([Event.invoke c, Event.enter c] : List Event) =
                  [Event.invoke c] ++ [Event.enter c] from rfl, invokeCount_append,
                  invokeCount_invoke]
                have : invokeCount k [Event.enter c] = 0 := rfl
                split <;> omega
              · intro h1
                rw [show ([Event.invoke c, Event.enter c] : List Event) =
                  [Event.invoke c] ++ [Event.enter c] from rfl, invokeCount_append,
                  invokeCount_invoke] at h1
                have h2 : invokeCount k [Event.enter c] = 0 := rfl
                rw [cacheKey_eq_call, hcall]
                by_cases hck : c = k
                · rw [hck]
                · rw [if_neg hck] at h1
                  omega
              · intro w
                intro hmem
                rcases List.mem_cons.1 hmem with h | h
                · cases h
                · rcases List.mem_singleton.1 h with h'
                  cases h'
            · refine cacheStep_trans Hrec
                (invoke_record_cacheStep k sub s1 _ [Event.invoke c] values errors v
                  rfl rfl hkeyk ?_ ?_ ?_)
              · rw [invokeCount_invoke]
                split <;> omega
              · intro h1
                rw [invokeCount_invoke] at h1
                rw [cacheKey_eq_call, hcall]
                by_cases hck : c = k
                · rw [hck]
                · rw [if_neg hck] at h1
                  omega
              · intro w hmem
                rcases List.mem_singleton.1 hmem with h'
                cases h'

theorem solveSubs_cacheStep (k : Nat)
    (recur : Dep → RState → RState × Except Fault (List (String × Val) × List Err))
    (ctx : Ctx) (subs : List Dep)
    (H : ∀ sub ∈ subs, (sub.core.call = some k → sub.core.useCache = true) ∧
      ∀ s, CacheStep k s (recur sub s)) :
    ∀ (s : RState) (values : List (String × Val)) (errors : List Err),
      CacheStep k s (solveSubs recur ctx s values errors subs) := by
  induction subs with
  | nil =>
    intro s values errors
    exact cacheStep_okRefl k s (values, errors)
  | cons sub rest ih =>
    intro s values errors
    show CacheStep k s (match solveStep recur ctx s values errors sub with
      | (s1, Except.error f) => (s1, Except.error f)
      | (s1, Except.ok (v1, e1)) => solveSubs recur ctx s1 v1 e1 rest)
    have hstep := solveStep_cacheStep k recur ctx s values errors sub
      ((H sub (by simp)).2 s) (H sub (by simp)).1
    cases hres : solveStep recur ctx s values errors sub with
    | mk s1 r =>
      rw [hres] at hstep
      cases r with
      | error f => exact hstep
      | ok pr =>
        obtain ⟨v1, e1⟩ := pr
        exact cacheStep_trans hstep
          (ih (fun sub' hm => H sub' (List.mem_cons_of_mem _ hm)) s1 v1 e1)

theorem solveOne_cacheStep (k : Nat) (ctx : Ctx) :
    ∀ (n : Nat) (d : Dep) (s : RState), AllUC k d →
      CacheStep k s (solveOne ctx n d s) := by
  intro n
  induction n with
  | zero =>
    intro d s _
    exact cacheStep_errRefl k s Fault.recursionError
  | succ m ih =>
    intro d s hd
    obtain ⟨core, deps, huc, hrec⟩ := hd
    show CacheStep k s (match solveSubs (fun sub s' => solveOne ctx m sub s') ctx
        s [] [] deps with
      | (s1, Except.error f) => (s1, Except.error f)
      | (s1, Except.ok (v, e)) => bindOwnParams ctx (Dep.mk core deps) s1 v e)
    have hsubs := solveSubs_cacheStep k (fun sub s' => solveOne ctx m sub s') ctx deps
      (fun sub hm => ⟨huc sub hm, fun s' => ih sub s' (hrec sub hm)⟩) s [] []
    cases hres : solveSubs (fun sub s' => solveOne ctx m sub s') ctx s [] [] deps with
    | mk s1 r =>
      rw [hres] at hsubs
      cases r with
      | error f => exact hsubs
      | ok pr =>
        obtain ⟨v, e⟩ := pr
        have hb : CacheStep k s1 (bindOwnParams ctx (Dep.mk core deps) s1 v e) := by
          cases hbe : bindOwnParams ctx (Dep.mk core deps) s1 v e with
          | mk sb rb =>
            have hsb : sb = s1 := by
              have := bindOwnParams_state ctx (Dep.mk core deps) s1 v e
              rw [hbe] at this
              exact this
            subst hsb
            cases rb with
            | ok x => exact cacheStep_okRefl k sb x
            | error f => exact cacheStep_errRefl k sb f
        exact cacheStep_trans hsubs hb

theorem invokeCount_map_cleanup (k : Nat) (l : List Nat) :
    invokeCount k (l.map Event.cleanup) = 0 := by
  induction l with
  | nil => rfl
  | cons a t ih =>
    have hstep : invokeCount k (Event.cleanup a :: t.map Event.cleanup)
        = invokeCount k (t.map Event.cleanup) := rfl
    rw [List.map_cons, hstep, ih]

theorem invokeCount_cleanups (k : Nat) (st : List Nat) :
    invokeCount k (cleanupEvents st) = 0 := by
  rw [cleanupEvents]
  exact invokeCount_map_cleanup k st.reverse

theorem resolved_not_in_cleanups (q : Option Nat) (v : Val) (st : List Nat) :
    Event.resolved q v ∉ cleanupEvents st := by
  intro hmem
  obtain ⟨c, -, hc⟩ := List.mem_map.1 hmem
  cases hc

theorem runRoute_cache_global (ctx : Ctx) (fuel : Nat) (root : Dep) (k : Nat)
    (h : AllUC k root) :
    invokeCount k (runRoute ctx fuel root).2 ≤ 1
    ∧ ∀ v w, Event.resolved (some k) v ∈ (runRoute ctx fuel root).2 →
        Event.resolved (some k) w ∈ (runRoute ctx fuel root).2 → v = w := by
  have hcs := solveOne_cacheStep k ctx fuel root ⟨[], [], []⟩ h
  cases hsolve : solveOne ctx fuel root ⟨[], [], []⟩ with
  | mk s1 r =>
    rw [hsolve] at hcs
    obtain ⟨hmono, hprop, ts, hts, hw⟩ := hcs
    simp only [List.nil_append] at hts
    have hprop1 : CacheProp k s1 :=
      hprop (fun v hv => absurd hv (List.not_mem_nil _))
    have hW0 : cachedWeight k (⟨[], [], []⟩ : RState) = 0 := rfl
    have hcount1 : invokeCount k s1.trace ≤ 1 := by
      rw [hts]
      cases r with
      | ok x =>
        simp only at hw
        have := cachedWeight_le_one k s1
        omega
      | error f =>
        simp only at hw
        omega
    have hresolved : ∀ v w, Event.resolved (some k) v ∈ s1.trace →
        Event.resolved (some k) w ∈ s1.trace → v = w := by
      intro v w hv hw'
      have h1 := hprop1 v hv
      have h2 := hprop1 w hw'
      rw [h1] at h2
      injection h2
    unfold runRoute
    rw [hsolve]
    cases r with
    | error f =>
      dsimp only
      refine ⟨?_, ?_⟩
      · rw [invokeCount_append, invokeCount_cleanups]
        omega
      · intro v w hv hw'
        rw [List.mem_append] at hv hw'
        rcases hv with hv | hv
        · rcases hw' with hw' | hw'
          · exact hresolved v w hv hw'
          · exact absurd hw' (resolved_not_in_cleanups _ _ _)
        · exact absurd hv (resolved_not_in_cleanups _ _ _)
    | ok pr =>
      obtain ⟨values, errors⟩ := pr
      dsimp only
      by_cases herr : errors.isEmpty = true
      · rw [if_pos herr]
        cases hcall : root.core.call with
        | none =>
          dsimp only
          refine ⟨?_, ?_⟩
          · rw [invokeCount_append, invokeCount_cleanups]
            omega
          · intro v w hv hw'
            rw [List.mem_append] at hv hw'
            rcases hv with hv | hv
            · rcases hw' with hw' | hw'
              · exact hresolved v w hv hw'
              · exact absurd hw' (resolved_not_in_cleanups _ _ _)
            · exact absurd hv (resolved_not_in_cleanups _ _ _)
        | some c =>
          dsimp only
          have hmem : ∀ (v : Val),
              Event.resolved (some k) v ∈
                s1.trace ++ [Event.handler] ++ cleanupEvents s1.stack →
              Event.resolved (some k) v ∈ s1.trace := by
            intro v hv
            rw [List.mem_append, List.mem_append, List.mem_singleton] at hv
            rcases hv with (hv | hv) | hv
            · exact hv
            · cases hv
            · exact absurd hv (resolved_not_in_cleanups _ _ _)
          have hcnt : invokeCount k
              (s1.trace ++ [Event.handler] ++ cleanupEvents s1.stack) ≤ 1 := by
            rw [invokeCount_append, invokeCount_append, invokeCount_cleanups]
            have : invokeCount k [Event.handler] = 0 := rfl
            omega
          cases hfn : (ctx.calls c).fn values with
          | ok v =>
            exact ⟨hcnt, fun v w hv hw' => hresolved v w (hmem v hv) (hmem w hw')⟩
          | error e =>
            exact ⟨hcnt, fun v w hv hw' => hresolved v w (hmem v hv) (hmem w hw')⟩
      · rw [if_neg herr]
        dsimp only
        refine ⟨?_, ?_⟩
        · rw [invokeCount_append, invokeCount_cleanups]
          omega
        · intro v w hv hw'
          rw [List.mem_append] at hv hw'
          rcases hv with hv | hv
          · rcases hw' with hw' | hw'
            · exact hresolved v w hv hw'
            · exact absurd hw' (resolved_not_in_cleanups _ _ _)
          · exact absurd hv (resolved_not_in_cleanups _ _ _)

theorem solveRecord_cached (sub : Dep) (s : RState)
    (values : List (String × Val)) (errors : List Err) (v : Val)
    (hlook : lookupCache s.cache sub.cacheKey = some v) :
    solveRecord sub s values errors v =
      ({ s with trace := s.trace ++ [Event.resolved sub.cacheKey v] },
       Except.ok ((match sub.core.name with
                   | some nm => dictSet values nm v
                   | Option.none => values), errors)) := by
  unfold solveRecord
  dsimp only
  rw [hlook]
  rfl

theorem solveRecord_stores (sub : Dep) (s : RState)
    (values : List (String × Val)) (errors : List Err) (v : Val)
    (hnone : lookupCache s.cache sub.cacheKey = Option.none) :
    lookupCache (solveRecord sub s values errors v).1.cache sub.cacheKey = some v := by
  unfold solveRecord
  dsimp only
  rw [hnone, Option.isNone_none, if_pos rfl]
  rw [lookupCache_append, hnone]
  exact lookupCache_single_self _ _

/-- C2: within one request, (a) a cache-enabled child whose `cache_key` is
already in the shared cache receives the cached value — the step's only
trace event is `resolved` (no `invoke`, no `enter`), the cache is left
unchanged, and the cached value is bound under the child's name; (b) a
freshly computed value is stored under the `cache_key` whenever the key was
absent, with no `use_cache` condition — the hypothesis set says nothing
about `use_cache`, so a `use_cache=false` occurrence stores too, and a
later cache-enabled occurrence finds the key present; and (c) globally,
when every occurrence of callable `k` in the tree is cache-enabled, `k`'s
body runs at most once per request and all `resolved` records for `k`'s key
carry the identical value. -/
theorem c2_cache_reuse_and_store :
    (∀ (recur : Dep → RState → RState × Except Fault (List (String × Val) × List Err))
        (ctx : Ctx) (s s1 : RState) (values : List (String × Val))
        (errors : List Err) (sub : Dep) (sv : List (String × Val)) (v : Val),
      recur sub s = (s1, Except.ok (sv, ([] : List Err))) →
      sub.core.useCache = true →
      lookupCache s1.cache sub.cacheKey = some v →
      solveStep recur ctx s values errors sub =
        ({ s1 with trace := s1.trace ++ [Event.resolved sub.cacheKey v] },
         Except.ok ((match sub.core.name with
                     | some nm => dictSet values nm v
                     | Option.none => values), errors)))
    ∧ (∀ (recur : Dep → RState → RState × Except Fault (List (String × Val) × List Err))
        (ctx : Ctx) (s s1 : RState) (values : List (String × Val))
        (errors : List Err) (sub : Dep) (sv : List (String × Val)) (v : Val) (c : Nat),
      recur sub s = (s1, Except.ok (sv, ([] : List Err))) →
      sub.core.call = some c →
      lookupCache s1.cache sub.cacheKey = Option.none →
      (ctx.calls c).fn sv = Except.ok v →
      lookupCache (solveStep recur ctx s values errors sub).1.cache
        sub.cacheKey = some v)
    ∧ (∀ (ctx : Ctx) (fuel : Nat) (root : Dep) (k : Nat), AllUC k root →
      invokeCount k (runRoute ctx fuel root).2 ≤ 1
      ∧ ∀ v w, Event.resolved (some k) v ∈ (runRoute ctx fuel root).2 →
          Event.resolved (some k) w ∈ (runRoute ctx fuel root).2 → v = w) := by
  refine ⟨?_, ?_, ?_⟩
  · intro recur ctx s s1 values errors sub sv v hrec huc hlook
    unfold solveStep
    rw [hrec]
    dsimp only
    rw [if_neg (by simp : ¬(([] : List Err) ≠ []))]
    rw [if_pos huc, hlook]
    dsimp only
    exact solveRecord_cached sub s1 values errors v hlook
  · intro recur ctx s s1 values errors sub sv v c hrec hcall hnone hfn
    unfold solveStep
    rw [hrec]
    dsimp only
    rw [if_neg (by simp : ¬(([] : List Err) ≠ []))]
    rw [hnone, ite_self]
    dsimp only
    rw [hcall]
    dsimp only
    rw [hfn]
    dsimp only
    cases hgen : (ctx.calls c).gen with
    | true =>
      rw [if_pos rfl]
      exact solveRecord_stores sub _ values errors v hnone
    | false =>
      rw [if_neg (by simp)]
      exact solveRecord_stores sub _ values errors v hnone
  · intro ctx fuel root k h
    exact runRoute_cache_global ctx fuel root k h

/-- The runtime environment of the C2 scenario: callable 5 is the shared
sub-dependency returning `9`; callable 0 is the handler. -/
def c2Calls : CallEnv := fun c =>
  if c == 5 then ⟨false, fun _ => Except.ok (Val.int 9)⟩
  else ⟨false, fun _ => Except.ok (Val.str "ok")⟩

/-- A request carrying no parameters at all. -/
def c2Ctx : Ctx := ⟨c2Calls, ⟨[], [], [], [], Val.none, false⟩⟩

/-- A cache-enabled leaf occurrence of callable 5, bound under `a`. -/
def c2SubCore : DepCore :=
  ⟨some "a", some 5, true, some Option.none, Option.none, [], [], [], [], []⟩

/-- First cache-enabled occurrence of callable 5. -/
def c2SubA : Dep := Dep.mk c2SubCore []

/-- Second cache-enabled occurrence of callable 5, bound under `b`. -/
def c2SubB : Dep := Dep.mk { c2SubCore with name := some "b" } []

/-- A `use_cache=false` occurrence of callable 5, bound under `c`. -/
def c2SubNC : Dep := Dep.mk { c2SubCore with name := some "c", useCache := false } []

/-- A root whose two children both depend on callable 5 with caching on. -/
def c2Root : Dep :=
  Dep.mk ⟨Option.none, some 0, true, some Option.none, Option.none, [], [], [], [], []⟩
    [c2SubA, c2SubB]

/-- A state whose cache already holds callable 5's key. -/
def c2HitState : RState := ⟨[(some 5, Val.int 7)], [], []⟩

/-- A trivial recursive solve producing no values and no errors — the leaf
occurrences have no children, so this is what their recursion returns. -/
def c2Recur : Dep → RState → RState × Except Fault (List (String × Val) × List Err) :=
  fun _ s => (s, Except.ok ([], []))

/-- Witness for C2 at the concrete scenario: (a) with key 5 already cached
at value 7, the step on the cache-enabled occurrence yields exactly one
`resolved` event and binds 7 under `a`; (b) on an empty cache the
`use_cache=false` occurrence still stores 9 under key 5; (c) in the
two-occurrence tree, callable 5's body runs at most once — and the full
request trace, computed outright, shows one `invoke` and two identical
`resolved` records. -/
theorem c2_cache_reuse_and_store_witness :
    c2Recur c2SubA c2HitState = (c2HitState, Except.ok ([], []))
    ∧ c2SubA.core.useCache = true
    ∧ lookupCache c2HitState.cache c2SubA.cacheKey = some (Val.int 7)
    ∧ solveStep c2Recur c2Ctx c2HitState [] [] c2SubA =
        ({ c2HitState with
            trace := c2HitState.trace ++ [Event.resolved c2SubA.cacheKey (Val.int 7)] },
         Except.ok ((match c2SubA.core.name with
                     | some nm => dictSet [] nm (Val.int 7)
                     | Option.none => []), []))
    ∧ c2SubNC.core.call = some 5
    ∧ c2SubNC.core.useCache = false
    ∧ lookupCache (⟨[], [], []⟩ : RState).cache c2SubNC.cacheKey = Option.none
    ∧ (c2Ctx.calls 5).fn [] = Except.ok (Val.int 9)
    ∧ lookupCache (solveStep c2Recur c2Ctx
        ⟨[], [], []⟩ [] [] c2SubNC).1.cache c2SubNC.cacheKey = some (Val.int 9)
    ∧ invokeCount 5 (runRoute c2Ctx 3 c2Root).2 ≤ 1
    ∧ (runRoute c2Ctx 3 c2Root).2 =
        [Event.invoke 5, Event.resolved (some 5) (Val.int 9),
         Event.resolved (some 5) (Val.int 9), Event.handler] := by
  have hAll : AllUC 5 c2Root := by
    refine AllUC.node _ _ ?_ ?_
    · intro sub hm _
      rcases List.mem_cons.1 hm with h | h
      · rw [h]; rfl
      · rw [List.mem_singleton.1 h]; rfl
    · intro sub hm
      rcases List.mem_cons.1 hm with h | h
      · rw [h]
        exact AllUC.node _ _ (fun s hs => absurd hs (List.not_mem_nil _))
          (fun s hs => absurd hs (List.not_mem_nil _))
      · rw [List.mem_singleton.1 h]
        exact AllUC.node _ _ (fun s hs => absurd hs (List.not_mem_nil _))
          (fun s hs => absurd hs (List.not_mem_nil _))
  refine ⟨rfl, rfl, rfl, ?_, rfl, rfl, rfl, rfl, ?_, ?_, rfl⟩
  · exact c2_cache_reuse_and_store.1 c2Recur c2Ctx
      c2HitState c2HitState [] [] c2SubA [] (Val.int 7) rfl rfl rfl
  · exact c2_cache_reuse_and_store.2.1 c2Recur c2Ctx
      ⟨[], [], []⟩ ⟨[], [], []⟩ [] [] c2SubNC [] (Val.int 9) 5 rfl rfl rfl rfl
  · exact (c2_cache_reuse_and_store.2.2 c2Ctx 3 c2Root 5 hAll).1

end FlaskDependant
